import Mathlib

/-!
Shallow embedding of the cschweda/z80-assembler core pipeline
(lexer, expression evaluator, two-pass parser, opcode encoders,
code generator, assembler facade), translated from the JavaScript
sources, together with theorems settling the frozen claims.

Conventions:
* JS numbers holding integers are modelled as `Int`; JS bitwise
  operators (which work on 32-bit two's-complement values) are
  modelled by `jsAnd`, `jsOr`, `jsShr` below.
* JS exceptions are modelled with `Except String`; where the thrown
  error also leaves mutated state visible to the catcher, the error
  value carries the state.
* JS loops are modelled with an explicit fuel argument that is always
  large enough for the loop's actual iteration count (every loop in
  the source consumes at least one token or character per iteration).
-/

namespace Z80

/-! ## JS 32-bit integer semantics -/

/-- JS ToInt32: wrap an integer into the signed 32-bit range
(2147483648 = 2^31, 4294967296 = 2^32). -/
def toInt32 (a : Int) : Int := (a + 2147483648) % 4294967296 - 2147483648

/-- JS ToUint32: wrap an integer into the unsigned 32-bit range. -/
def toUint32 (a : Int) : Nat := (a % 4294967296).toNat

/-- JS bitwise AND (`a & b`): two's-complement on 32 bits. -/
def jsAnd (a b : Int) : Int :=
  toInt32 (Int.ofNat (Nat.land (toUint32 a) (toUint32 b)))

/-- JS bitwise OR (`a | b`). -/
def jsOr (a b : Int) : Int :=
  toInt32 (Int.ofNat (Nat.lor (toUint32 a) (toUint32 b)))

/-- JS sign-propagating right shift (`a >> b`): arithmetic shift of the
32-bit value, i.e. floor division by a power of two. -/
def jsShr (a : Int) (b : Nat) : Int := Int.fdiv (toInt32 a) (2 ^ (b % 32))

/-! ## constants.js -/

/-- TOKEN enumeration from constants.js (plus the literal 'ERROR' type the
lexer emits for unrecognized characters). -/
inductive TokType where
  | label | mnemonic | register | number | string | directive
  | operator | lparen | rparen | comma | colon | newline | eof
  | comment | error
deriving Repr, DecidableEq

deriving instance DecidableEq for Except

/-- Lexer token. JS token `value` is a number for NUMBER tokens and a string
otherwise; we carry both fields (`nval` for NUMBER, `sval` otherwise). -/
structure Token where
  ttype : TokType
  sval : String := ""
  nval : Int := 0
  line : Nat := 1
  column : Nat := 1
deriving Repr, DecidableEq

/-- REG8 table from constants.js. -/
def REG8 (s : String) : Option Nat :=
  if s = "B" then some 0 else if s = "C" then some 1
  else if s = "D" then some 2 else if s = "E" then some 3
  else if s = "H" then some 4 else if s = "L" then some 5
  else if s = "(HL)" then some 6 else if s = "A" then some 7
  else none

/-- REG16 table from constants.js. -/
def REG16 (s : String) : Option Nat :=
  if s = "BC" then some 0 else if s = "DE" then some 1
  else if s = "HL" then some 2 else if s = "SP" then some 3
  else none

/-- STACK_REG table from constants.js. -/
def STACK_REG (s : String) : Option Nat :=
  if s = "BC" then some 0 else if s = "DE" then some 1
  else if s = "HL" then some 2 else if s = "AF" then some 3
  else none

/-- CONDITIONS table from constants.js. -/
def CONDITIONS (s : String) : Option Nat :=
  if s = "NZ" then some 0 else if s = "Z" then some 1
  else if s = "NC" then some 2 else if s = "C" then some 3
  else if s = "PO" then some 4 else if s = "PE" then some 5
  else if s = "P" then some 6 else if s = "M" then some 7
  else none

/-- MEMORY.DEFAULT_ORG from constants.js. -/
def DEFAULT_ORG : Int := 0x4200

/-- MNEMONICS set from constants.js. -/
def MNEMONICS : List String :=
  ["ADC", "ADD", "SBC", "SUB", "INC", "DEC", "NEG", "DAA", "CPL",
   "AND", "OR", "XOR", "CP",
   "RLCA", "RLA", "RRCA", "RRA", "RLC", "RL", "RRC", "RR",
   "SLA", "SRA", "SLL", "SRL", "RLD", "RRD",
   "BIT", "SET", "RES",
   "JP", "JR", "DJNZ", "CALL", "RET", "RETI", "RETN", "RST",
   "LD", "PUSH", "POP", "EX", "EXX",
   "LDI", "LDIR", "LDD", "LDDR",
   "CPI", "CPIR", "CPD", "CPDR",
   "INI", "INIR", "IND", "INDR",
   "OUTI", "OTIR", "OUTD", "OTDR",
   "IN", "OUT",
   "NOP", "HALT", "DI", "EI", "IM", "SCF", "CCF"]

/-- REGISTERS set from constants.js (the alternate pair AF-prime is written
with an escaped apostrophe). -/
def REGISTERS : List String :=
  ["A", "B", "C", "D", "E", "H", "L",
   "AF", "BC", "DE", "HL", "SP", "PC",
   "IX", "IY", "IXH", "IXL", "IYH", "IYL",
   "I", "R", "AF\x27"]

/-- DIRECTIVES set from constants.js. -/
def DIRECTIVES : List String :=
  [".ORG", ".DB", ".DW", ".EQU", ".DEFL", ".END", ".DS",
   "ORG", "DB", "DW", "EQU", "DEFL", "END", "DS",
   "DEFB", "DEFW", "DEFM", "DEFS"]

/-! ## Lexer (lexer.js) -/

/-- Lexer.isDigit, lifted to an optional character: JS comparisons against
`undefined` (out-of-range string index) are false. -/
def isDigitO : Option Char → Bool
  | some c => '0' ≤ c && c ≤ '9'
  | none => false

/-- Lexer.isHexDigit. -/
def isHexDigitO (oc : Option Char) : Bool :=
  isDigitO oc ||
    (match oc with
     | some c => ('A' ≤ c && c ≤ 'F') || ('a' ≤ c && c ≤ 'f')
     | none => false)

/-- Lexer.isAlpha. -/
def isAlphaO : Option Char → Bool
  | some c => ('A' ≤ c && c ≤ 'Z') || ('a' ≤ c && c ≤ 'z')
  | none => false

/-- Lexer.isAlphaNumeric. -/
def isAlphaNumericO (oc : Option Char) : Bool := isAlphaO oc || isDigitO oc

/-- Whitespace characters removed by the JS String.trim used on source
input and comment text (ASCII subset; inputs here are ASCII). -/
def isJsSpace (c : Char) : Bool :=
  c == ' ' || c == '\t' || c == '\n' || c == '\r' || c.toNat == 11 || c.toNat == 12

/-- JS String.prototype.trim on a character list. -/
def jsTrimList (l : List Char) : List Char :=
  ((l.dropWhile isJsSpace).reverse.dropWhile isJsSpace).reverse

/-- JS String.prototype.trim. -/
def jsTrim (s : String) : String := String.mk (jsTrimList s.toList)

/-- Numeric value of one hex digit. -/
def hexDigitVal (c : Char) : Nat :=
  if '0' ≤ c ∧ c ≤ '9' then c.toNat - 48
  else if 'A' ≤ c ∧ c ≤ 'F' then c.toNat - 55
  else if 'a' ≤ c ∧ c ≤ 'f' then c.toNat - 87
  else 0

/-- JS parseInt(s, 16) on a string of hex digits (the lexer only calls it on
all-hex strings; an empty string would be NaN in JS, modelled as 0 and never
produced by the scanning rules for hex). -/
def parseIntHex (l : List Char) : Int :=
  Int.ofNat (l.foldl (fun a c => a * 16 + hexDigitVal c) 0)

/-- JS parseInt(s, 2) on a string of binary digits (an empty string - source
text `%` followed by no binary digit - is NaN in JS; modelled as 0, no claim
exercises it). -/
def parseIntBin (l : List Char) : Int :=
  Int.ofNat (l.foldl (fun a c => a * 2 + (c.toNat - 48)) 0)

/-- JS parseInt(s, 10): parses the longest leading run of decimal digits
(the lexer scans hex digits for the decimal case, so e.g. "1A" parses as 1;
an empty digit prefix is NaN in JS, modelled as 0). -/
def parseIntDec (l : List Char) : Int :=
  Int.ofNat ((l.takeWhile (fun c => '0' ≤ c && c ≤ '9')).foldl
    (fun a c => a * 10 + (c.toNat - 48)) 0)

/-- Lexer.skipWhitespace: consume spaces, tabs, carriage returns; returns
the remaining characters and updated column. -/
def skipWhitespace : List Char → Nat → List Char × Nat
  | c :: rest, col =>
    if c == ' ' || c == '\t' || c == '\r' then skipWhitespace rest (col + 1)
    else (c :: rest, col)
  | [], col => ([], col)

/-- Greedy scan of characters satisfying a predicate (the `value += advance()`
loops); returns the collected characters, rest, and updated column. -/
def scanWhile (p : Option Char → Bool) : List Char → Nat → List Char × List Char × Nat
  | c :: rest, col =>
    if p (some c) then
      let (v, r, col') := scanWhile p rest (col + 1)
      (c :: v, r, col')
    else ([], c :: rest, col)
  | [], col => ([], [], col)

/-- Lexer.scanNumber. Returns the token, remaining characters, and column. -/
def scanNumber (src : List Char) (line col : Nat) : Token × List Char × Nat :=
  let startCol := col
  match src with
  | '$' :: rest =>
    let (v, r, col') := scanWhile isHexDigitO rest (col + 1)
    (⟨.number, "", parseIntHex v, line, startCol⟩, r, col')
  | '%' :: rest =>
    let (v, r, col') := scanWhile (fun oc => oc == some '0' || oc == some '1') rest (col + 1)
    (⟨.number, "", parseIntBin v, line, startCol⟩, r, col')
  | other =>
    let (v, r, col') := scanWhile isHexDigitO other col
    match r with
    | c :: r' =>
      if c.toUpper = 'H' then
        (⟨.number, "", parseIntHex v, line, startCol⟩, r', col' + 1)
      else
        (⟨.number, "", parseIntDec v, line, startCol⟩, c :: r', col')
    | [] => (⟨.number, "", parseIntDec v, line, startCol⟩, [], col')

/-- Lexer.scanIdentifier: scan, handle the AF-apostrophe special case,
uppercase, and classify against the mnemonic / register / directive sets. -/
def scanIdentifier (src : List Char) (line col : Nat) : Token × List Char × Nat :=
  let startCol := col
  let (v, r, col') :=
    scanWhile (fun oc => isAlphaNumericO oc || oc == some '_' || oc == some '.') src col
  let (v, r, col') :=
    match r with
    | c :: r' =>
      if String.mk (v.map Char.toUpper) = "AF" ∧ c = Char.ofNat 39 then
        (v ++ [c], r', col' + 1)
      else (v, c :: r', col')
    | [] => (v, r, col')
  let upper := String.mk (v.map Char.toUpper)
  let ty : TokType :=
    if MNEMONICS.contains upper then .mnemonic
    else if REGISTERS.contains upper then .register
    else if DIRECTIVES.contains upper then .directive
    else .label
  (⟨ty, upper, 0, line, startCol⟩, r, col')

/-- Lexer.scanComment: consume `;` then everything up to the newline;
the stored value is trimmed. -/
def scanComment (src : List Char) (line col : Nat) : Token × List Char × Nat :=
  let startCol := col
  match src with
  | _semi :: rest =>
    let (v, r, col') := scanWhile (fun oc => oc.isSome && oc != some '\n') rest (col + 1)
    (⟨.comment, String.mk (jsTrimList v), 0, line, startCol⟩, r, col')
  | [] => (⟨.comment, "", 0, line, startCol⟩, [], col)

/-- Lexer.scanString: consume the opening quote, characters up to the closing
quote or newline, and the closing quote when present. -/
def scanString (quote : Char) (src : List Char) (line col : Nat) : Token × List Char × Nat :=
  match src with
  | _q :: rest =>
    let (v, r, col') := scanWhile (fun oc => oc.isSome && oc != some quote && oc != some '\n') rest (col + 1)
    match r with
    | c :: r' =>
      if c = quote then (⟨.string, String.mk v, 0, line, col⟩, r', col' + 1)
      else (⟨.string, String.mk v, 0, line, col⟩, c :: r', col')
    | [] => (⟨.string, String.mk v, 0, line, col⟩, [], col')
  | [] => (⟨.string, "", 0, line, col⟩, [], col)

/-- Single-character token table from Lexer.scanToken. -/
def singleCharTok (c : Char) : Option TokType :=
  if c = '(' then some .lparen else if c = ')' then some .rparen
  else if c = ',' then some .comma else if c = ':' then some .colon
  else if c == '+' || c == '-' || c == '*' || c == '/' || c == '$' then some .operator
  else none

/-- Lexer.scanToken / tokenize main loop, with fuel (each iteration consumes
at least one character, so fuel = source length suffices); also returns the
final line/column, used for the EOF token. -/
def scanTokens : Nat → List Char → Nat → Nat → List Token × Nat × Nat
  | 0, _, line, col => ([], line, col)
  | fuel + 1, src, line, col =>
    let (src, col) := skipWhitespace src col
    match src with
    | [] => ([], line, col)
    | c :: rest =>
      if c = ';' then
        let (t, r, col') := scanComment (c :: rest) line col
        let (ts, l, cl) := scanTokens fuel r line col'
        (t :: ts, l, cl)
      else if c = '\n' then
        let (ts, l, cl) := scanTokens fuel rest (line + 1) 1
        (⟨.newline, "\\n", 0, line, col⟩ :: ts, l, cl)
      else if isDigitO (some c) || c == '%' then
        let (t, r, col') := scanNumber (c :: rest) line col
        let (ts, l, cl) := scanTokens fuel r line col'
        (t :: ts, l, cl)
      else if c = '$' then
        if isHexDigitO rest.head? then
          let (t, r, col') := scanNumber (c :: rest) line col
          let (ts, l, cl) := scanTokens fuel r line col'
          (t :: ts, l, cl)
        else
          let (ts, l, cl) := scanTokens fuel rest line (col + 1)
          (⟨.operator, "$", 0, line, col⟩ :: ts, l, cl)
      else if c == '"' || c == Char.ofNat 39 then
        let (t, r, col') := scanString c (c :: rest) line col
        let (ts, l, cl) := scanTokens fuel r line col'
        (t :: ts, l, cl)
      else if isAlphaO (some c) || c == '_' || c == '.' then
        let (t, r, col') := scanIdentifier (c :: rest) line col
        let (ts, l, cl) := scanTokens fuel r line col'
        (t :: ts, l, cl)
      else
        let (ts, l, cl) := scanTokens fuel rest line (col + 1)
        match singleCharTok c with
        | some ty => (⟨ty, String.mk [c], 0, line, col⟩ :: ts, l, cl)
        | none => (⟨.error, String.mk [c], 0, line, col⟩ :: ts, l, cl)

/-- Lexer.tokenize: scan the whole source and append the EOF token at the
line/column current when scanning ends. -/
def tokenize (source : String) : List Token :=
  let cs := source.toList
  let (ts, l, cl) := scanTokens (cs.length + 1) cs 1 1
  ts ++ [⟨.eof, "", 0, l, cl⟩]

/-! ## Symbol table and shared data types -/

/-- Symbol table entry: `{ address, type }` with type 'LABEL' | 'EQU' | 'DEFL'. -/
structure Sym where
  address : Int
  type : String
deriving Repr, DecidableEq

/-- The symbol table is a JS object keyed by uppercased identifier; modelled
as an association list where insertion overwrites the existing binding. -/
abbrev SymTable := List (String × Sym)

/-- Property read `table[name]`. -/
def lookupSym (t : SymTable) (n : String) : Option Sym :=
  (t.find? (fun p => p.1 = n)).map (·.2)

/-- Property write `table[name] = v`: replace the existing binding in place,
else append. -/
def insertSym : SymTable → String → Sym → SymTable
  | [], n, v => [(n, v)]
  | (k, w) :: rest, n, v =>
    if k = n then (k, v) :: rest else (k, w) :: insertSym rest n v

/-- Diagnostic record (parser errors/warnings carry message and line; the
facade's lexer diagnostics also carry a column). -/
structure Diag where
  message : String
  line : Nat := 1
  column : Option Nat := none
deriving Repr, DecidableEq

/-- Parsed operand: JS uses strings (registers, conditions, `(HL)` forms),
numbers (fully evaluated expressions), or `{type:'LABEL_REF', name}` marker
objects for deferred label resolution. -/
inductive Operand where
  | str (s : String)
  | num (n : Int)
  | labelRef (name : String)
deriving Repr, DecidableEq

/-- JS template-string rendering of an operand (numbers print in decimal;
plain objects render as `[object Object]`). -/
def operandToString : Operand → String
  | .str s => s
  | .num n => toString n
  | .labelRef _ => "[object Object]"

/-- JS Array.prototype.join(", ") over operands. -/
def joinOperands : List Operand → String
  | [] => ""
  | [o] => operandToString o
  | o :: rest => operandToString o ++ ", " ++ joinOperands rest

/-- Intermediate record emitted by parser pass 2: either
`{type:'DATA', bytes, address, label?}` or
`{type:'INSTRUCTION', mnemonic, operands, address, bytes, label}`. -/
structure IRecord where
  rtype : String
  mnemonic : String := ""
  operands : List Operand := []
  address : Int := 0
  bytes : List Int := []
  label : Option String := none
deriving Repr, DecidableEq

/-- Encoder result `{ bytes, size }` (the JS objects also carry cycle counts,
which nothing downstream reads; omitted). -/
structure Encoding where
  bytes : List Int
  size : Nat
deriving Repr, DecidableEq

/-- JS substring containment (String.prototype.includes). -/
def listIncludes (pat : List Char) : List Char → Bool
  | [] => pat.isEmpty
  | c :: rest => pat.isPrefixOf (c :: rest) || listIncludes pat rest

/-- String.prototype.includes. -/
def strIncludes (s pat : String) : Bool := listIncludes pat.toList s.toList

/-- JS name of a token type (the TOKEN enumeration values), used in error
messages. -/
def tokTypeName : TokType → String
  | .label => "LABEL" | .mnemonic => "MNEMONIC" | .register => "REGISTER"
  | .number => "NUMBER" | .string => "STRING" | .directive => "DIRECTIVE"
  | .operator => "OPERATOR" | .lparen => "LPAREN" | .rparen => "RPAREN"
  | .comma => "COMMA" | .colon => "COLON" | .newline => "NEWLINE"
  | .eof => "EOF" | .comment => "COMMENT" | .error => "ERROR"

/-! ## Expression evaluator (evaluator.js) -/

/-- ExpressionEvaluator.preprocess: drop newline/comment tokens, replace `$`
with the current address and labels with their symbol-table addresses
(throwing on an undefined symbol). -/
def preprocess (tab : SymTable) (currentAddress : Int) :
    List Token → Except String (List Token)
  | [] => .ok []
  | t :: rest =>
    if t.ttype = .newline ∨ t.ttype = .comment then
      preprocess tab currentAddress rest
    else if t.ttype = .operator ∧ t.sval = "$" then
      (preprocess tab currentAddress rest).map
        (⟨.number, "", currentAddress, t.line, t.column⟩ :: ·)
    else if t.ttype = .label then
      match lookupSym tab t.sval with
      | none =>
        .error ("Undefined symbol: " ++ t.sval ++ " at line " ++ toString t.line)
      | some sym =>
        (preprocess tab currentAddress rest).map
          (⟨.number, "", sym.address, t.line, t.column⟩ :: ·)
    else
      (preprocess tab currentAddress rest).map (t :: ·)

mutual

/-- ExpressionEvaluator.parseExpression. -/
def parseExpressionE (tokens : List Token) (fuel : Nat) (start : Nat) :
    Except String (Int × Nat) :=
  match fuel with
  | 0 => .error "evaluator fuel exhausted"
  | f + 1 => parseAdditiveE tokens f start
termination_by structural fuel

/-- ExpressionEvaluator.parseAdditive. -/
def parseAdditiveE (tokens : List Token) (fuel : Nat) (start : Nat) :
    Except String (Int × Nat) :=
  match fuel with
  | 0 => .error "evaluator fuel exhausted"
  | f + 1 =>
    match parseMultiplicativeE tokens f start with
    | .error e => .error e
    | .ok (v, pos) => parseAdditiveLoop tokens f v pos
termination_by structural fuel

/-- While-loop of parseAdditive (left-associative + and -). -/
def parseAdditiveLoop (tokens : List Token) (fuel : Nat) (left : Int) (pos : Nat) :
    Except String (Int × Nat) :=
  match fuel with
  | 0 => .error "evaluator fuel exhausted"
  | f + 1 =>
    match tokens.get? pos with
    | some t =>
      if t.ttype = .operator ∧ (t.sval = "+" ∨ t.sval = "-") then
        match parseMultiplicativeE tokens f (pos + 1) with
        | .error e => .error e
        | .ok (rv, rpos) =>
          parseAdditiveLoop tokens f
            (if t.sval = "+" then left + rv else left - rv) rpos
      else .ok (left, pos)
    | none => .ok (left, pos)
termination_by structural fuel

/-- ExpressionEvaluator.parseMultiplicative. -/
def parseMultiplicativeE (tokens : List Token) (fuel : Nat) (start : Nat) :
    Except String (Int × Nat) :=
  match fuel with
  | 0 => .error "evaluator fuel exhausted"
  | f + 1 =>
    match parseUnaryE tokens f start with
    | .error e => .error e
    | .ok (v, pos) => parseMultLoop tokens f v pos
termination_by structural fuel

/-- While-loop of parseMultiplicative (left-associative * and /); division is
`Math.floor(left / right)`, i.e. floor division, after a zero check. -/
def parseMultLoop (tokens : List Token) (fuel : Nat) (left : Int) (pos : Nat) :
    Except String (Int × Nat) :=
  match fuel with
  | 0 => .error "evaluator fuel exhausted"
  | f + 1 =>
    match tokens.get? pos with
    | some t =>
      if t.ttype = .operator ∧ (t.sval = "*" ∨ t.sval = "/") then
        match parseUnaryE tokens f (pos + 1) with
        | .error e => .error e
        | .ok (rv, rpos) =>
          if t.sval = "*" then parseMultLoop tokens f (left * rv) rpos
          else if rv = 0 then
            .error ("Division by zero at line " ++ toString t.line)
          else parseMultLoop tokens f (Int.fdiv left rv) rpos
      else .ok (left, pos)
    | none => .ok (left, pos)
termination_by structural fuel

/-- ExpressionEvaluator.parseUnary. -/
def parseUnaryE (tokens : List Token) (fuel : Nat) (start : Nat) :
    Except String (Int × Nat) :=
  match fuel with
  | 0 => .error "evaluator fuel exhausted"
  | f + 1 =>
    match tokens.get? start with
    | none => .error "Unexpected end of expression"
    | some t =>
      if t.ttype = .operator ∧ t.sval = "-" then
        match parseUnaryE tokens f (start + 1) with
        | .error e => .error e
        | .ok (v, pos) => .ok (-v, pos)
      else if t.ttype = .operator ∧ t.sval = "+" then
        parseUnaryE tokens f (start + 1)
      else if t.ttype = .lparen then
        match parseExpressionE tokens f (start + 1) with
        | .error e => .error e
        | .ok (v, epos) =>
          match tokens.get? epos with
          | some rt =>
            if rt.ttype = .rparen then .ok (v, epos + 1)
            else .error ("Unmatched parenthesis at line " ++ toString t.line)
          | none => .error ("Unmatched parenthesis at line " ++ toString t.line)
      else if t.ttype = .number then .ok (t.nval, start + 1)
      else
        .error ("Unexpected token: " ++ tokTypeName t.ttype ++ " at line " ++
          toString t.line)
termination_by structural fuel

end

/-- ExpressionEvaluator.evaluate. The fuel bound exceeds the number of
recursive calls any terminating JS evaluation performs on the processed
token list (each grammar level adds at most four nested calls per token). -/
def evaluate (tab : SymTable) (currentAddress : Int) (tokens : List Token) :
    Except String Int :=
  if tokens.length = 0 then .error "Empty expression"
  else
    match preprocess tab currentAddress tokens with
    | .error e => .error e
    | .ok processed =>
      if processed.length = 0 then .error "Empty expression after preprocessing"
      else
        match parseExpressionE processed (4 * processed.length + 16) 0 with
        | .error e => .error e
        | .ok (v, _) => .ok v

/-! ## Parser (parser.js), two passes -/

/-- Parser state: token list (comments stripped on intake), cursor, collected
diagnostics, symbol table, logical address, emitted records, current pass. -/
structure PState where
  tokens : List Token
  pos : Nat := 0
  errors : List Diag := []
  warnings : List Diag := []
  symbolTable : SymTable := []
  currentAddress : Int := DEFAULT_ORG
  instructions : List IRecord := []
  pass : Nat := 1
deriving Repr, DecidableEq

/-- Parser.peek. -/
def PState.peek (s : PState) : Option Token := s.tokens.get? s.pos

/-- Indexed token access `this.tokens[i]`. -/
def PState.tokAt (s : PState) (i : Nat) : Option Token := s.tokens.get? i

/-- Parser.isAtEnd: `pos >= tokens.length || peek()?.type === EOF`. -/
def PState.isAtEnd (s : PState) : Bool :=
  decide (s.tokens.length ≤ s.pos) || (s.peek.map Token.ttype == some .eof)

/-- Parser.check. -/
def PState.check (s : PState) (ty : TokType) : Bool :=
  s.peek.map Token.ttype == some ty

/-- Parser.checkNext. -/
def PState.checkNext (s : PState) (ty : TokType) : Bool :=
  (s.tokAt (s.pos + 1)).map Token.ttype == some ty

/-- Parser.currentLine: `peek()?.line ?? tokens[pos-1]?.line ?? 1`. -/
def PState.currentLine (s : PState) : Nat :=
  match s.peek with
  | some t => t.line
  | none =>
    match (if 1 ≤ s.pos then s.tokAt (s.pos - 1) else none) with
    | some t => t.line
    | none => 1

/-- Shorthand for `this.pos++` style advancing. -/
def PState.bump (s : PState) : PState := { s with pos := s.pos + 1 }

/-- Result of a parser step that may throw: the thrown error carries the
mutated state visible to the JS catcher. -/
abbrev PRes (α : Type) := Except (String × PState) (α × PState)

/-- Parser.defineSymbol: warn when redefining a symbol with a non-DEFL
definition, then overwrite (the later binding wins). -/
def defineSymbol (s : PState) (name : String) (address : Int)
    (ty : String := "LABEL") : PState :=
  let warnings :=
    if (lookupSym s.symbolTable name).isSome ∧ ty ≠ "DEFL" then
      s.warnings ++ [⟨"Symbol " ++ name ++ " redefined", s.currentLine, none⟩]
    else s.warnings
  { s with warnings := warnings,
           symbolTable := insertSym s.symbolTable name ⟨address, ty⟩ }

/-- Parser.consume. -/
def consume (s : PState) (expected : TokType) : PRes Token :=
  match s.peek with
  | some t =>
    if t.ttype = expected then .ok (t, s.bump)
    else .error ("Expected " ++ tokTypeName expected ++ ", got " ++
      tokTypeName t.ttype, s)
  | none =>
    .error ("Expected " ++ tokTypeName expected ++ ", got undefined", s)

/-- Parser.skipToNewline main loop. -/
def skipToNewlineLoop : Nat → PState → PState
  | 0, s => s
  | fuel + 1, s =>
    if ¬ s.isAtEnd ∧ ¬ s.check .newline then skipToNewlineLoop fuel s.bump
    else s

/-- Parser.skipToNewline: consume to the next newline and past it. -/
def skipToNewline (s : PState) : PState :=
  let s := skipToNewlineLoop (s.tokens.length + 1) s
  if s.check .newline then s.bump else s

/-- Parser.synchronize (same body as skipToNewline in the source). -/
def synchronize (s : PState) : PState := skipToNewline s

/-- Loop of Parser.collectExpressionTokens: gather tokens of one expression,
stopping at a newline, a top-level comma, or an unmatched right paren. -/
def collectExprLoop : Nat → PState → Nat → List Token × PState
  | 0, s, _ => ([], s)
  | fuel + 1, s, depth =>
    if s.isAtEnd then ([], s)
    else
      match s.peek with
      | none => ([], s)
      | some t =>
        if t.ttype = .newline then ([], s)
        else if t.ttype = .comma ∧ depth = 0 then ([], s)
        else if t.ttype = .rparen ∧ depth = 0 then ([], s)
        else
          let depth' :=
            if t.ttype = .lparen then depth + 1
            else if t.ttype = .rparen then depth - 1
            else depth
          let (ts, s') := collectExprLoop fuel s.bump depth'
          (t :: ts, s')

/-- Parser.collectExpressionTokens. -/
def collectExpressionTokens (s : PState) : List Token × PState :=
  collectExprLoop (s.tokens.length + 1) s 0

/-- Parser.parseExpressionValue: collect the expression tokens and evaluate;
with forward references allowed, an undefined-symbol error becomes the
placeholder 0 (the JS catch matches the message text). -/
def parseExpressionValue (s : PState) (allowForwardRefs : Bool := true) :
    PRes Int :=
  let (exprTokens, s') := collectExpressionTokens s
  match evaluate s.symbolTable s.currentAddress exprTokens with
  | .ok v => .ok (v, s')
  | .error msg =>
    if allowForwardRefs ∧
        (strIncludes msg "Undefined symbol" || strIncludes msg "Undefined label") then
      .ok (0, s')
    else .error (msg, s')

/-- Counting loop of Parser.parseDBPass1. -/
def dbCountLoop : Nat → PState → Nat → Nat × PState
  | 0, s, cnt => (cnt, s)
  | fuel + 1, s, cnt =>
    if ¬ s.check .newline ∧ ¬ s.isAtEnd then
      if s.check .string then
        match s.peek with
        | some t => dbCountLoop fuel s.bump (cnt + t.sval.length)
        | none => (cnt, s)
      else if s.check .number then dbCountLoop fuel s.bump (cnt + 1)
      else if s.check .comma then dbCountLoop fuel s.bump cnt
      else (cnt, s)
    else (cnt, s)

/-- Parser.parseDBPass1: count the bytes, advance the address, restore pos. -/
def parseDBPass1 (s : PState) : PState :=
  let startPos := s.pos
  let (count, s') := dbCountLoop (s.tokens.length + 1) s 0
  { s' with currentAddress := s'.currentAddress + count, pos := startPos }

/-- Counting loop of Parser.parseDWPass1. -/
def dwCountLoop : Nat → PState → Nat → Nat × PState
  | 0, s, cnt => (cnt, s)
  | fuel + 1, s, cnt =>
    if ¬ s.check .newline ∧ ¬ s.isAtEnd then
      if s.check .number || s.check .label then dwCountLoop fuel s.bump (cnt + 1)
      else if s.check .comma then dwCountLoop fuel s.bump cnt
      else (cnt, s)
    else (cnt, s)

/-- Parser.parseDWPass1. -/
def parseDWPass1 (s : PState) : PState :=
  let startPos := s.pos
  let (count, s') := dwCountLoop (s.tokens.length + 1) s 0
  { s' with currentAddress := s'.currentAddress + count * 2, pos := startPos }

/-- String emission inside parseDBPass2: one DATA record per character, the
label (when any) attached to the first record when this is the first datum. -/
def dbPushString (s : PState) (chars : List Char) (labelName : Option String)
    (firstData : Bool) (i : Nat) : PState :=
  match chars with
  | [] => s
  | c :: rest =>
    let r : IRecord :=
      { rtype := "DATA", bytes := [Int.ofNat (c.toNat &&& 0xFF)],
        address := s.currentAddress,
        label := if firstData ∧ i = 0 then labelName else none }
    dbPushString
      { s with instructions := s.instructions ++ [r],
               currentAddress := s.currentAddress + 1 }
      rest labelName firstData (i + 1)

/-- Data-generation loop of Parser.parseDBPass2. -/
def dbEmitLoop : Nat → PState → Option String → Bool → PRes Unit
  | 0, s, _, _ => .ok ((), s)
  | fuel + 1, s, labelName, firstData =>
    if ¬ s.check .newline ∧ ¬ s.isAtEnd then
      if s.check .string then
        match s.peek with
        | some t =>
          let s := dbPushString s.bump t.sval.toList labelName firstData 0
          dbEmitLoop fuel s labelName (firstData ∧ t.sval.length = 0)
        | none => .ok ((), s)
      else if s.check .number || s.check .label then
        match parseExpressionValue s true with
        | .error e => .error e
        | .ok (num, s) =>
          let r : IRecord :=
            { rtype := "DATA", bytes := [jsAnd num 255],
              address := s.currentAddress,
              label := if firstData then labelName else none }
          dbEmitLoop fuel
            { s with instructions := s.instructions ++ [r],
                     currentAddress := s.currentAddress + 1 }
            labelName false
      else if s.check .comma then dbEmitLoop fuel s.bump labelName firstData
      else .ok ((), s)
    else .ok ((), s)

/-- Parser.parseDBPass2: recover the label name from the look-back patterns
`LABEL COLON .DB` / `LABEL .DB` (or from the current position), then emit
one DATA record per byte. -/
def parseDBPass2 (s : PState) : PRes Unit :=
  let labelName : Option String :=
    if 2 < s.pos then
      match s.tokAt (s.pos - 1), s.tokAt (s.pos - 2), s.tokAt (s.pos - 3) with
      | some t1, some t2, some t3 =>
        if t3.ttype = .label ∧ t2.ttype = .colon ∧ t1.ttype = .directive then
          some t3.sval
        else none
      | _, _, _ => none
    else none
  let labelName : Option String :=
    if labelName.isNone ∧ 1 < s.pos then
      match s.tokAt (s.pos - 1), s.tokAt (s.pos - 2) with
      | some t1, some t2 =>
        if t2.ttype = .label ∧ t1.ttype = .directive then some t2.sval
        else none
      | _, _ => none
    else labelName
  let (labelName, s) :=
    if labelName.isNone ∧ s.check .label then
      match s.peek, s.tokAt (s.pos + 1) with
      | some label, some nextToken =>
        if nextToken.ttype = .colon then (some label.sval, s.bump.bump)
        else if nextToken.ttype = .number ∨ nextToken.ttype = .string then
          (some label.sval, s.bump)
        else (labelName, s)
      | _, _ => (labelName, s)
    else (labelName, s)
  dbEmitLoop (s.tokens.length + 1) s labelName true

/-- Data-generation loop of Parser.parseDWPass2 (little-endian words). -/
def dwEmitLoop : Nat → PState → PRes Unit
  | 0, s => .ok ((), s)
  | fuel + 1, s =>
    if ¬ s.check .newline ∧ ¬ s.isAtEnd then
      if s.check .number || s.check .label then
        match parseExpressionValue s true with
        | .error e => .error e
        | .ok (v, s) =>
          let r : IRecord :=
            { rtype := "DATA", bytes := [jsAnd v 255, jsAnd (jsShr v 8) 255],
              address := s.currentAddress }
          dwEmitLoop fuel
            { s with instructions := s.instructions ++ [r],
                     currentAddress := s.currentAddress + 2 }
      else if s.check .comma then dwEmitLoop fuel s.bump
      else .ok ((), s)
    else .ok ((), s)

/-- Parser.parseDWPass2. -/
def parseDWPass2 (s : PState) : PRes Unit :=
  dwEmitLoop (s.tokens.length + 1) s

/-- Emission loop of the .DS directive in Parser.parseDirectivePass2:
`count` zero-filled one-byte DATA records at increasing addresses. -/
def dsEmit : Nat → PState → PState
  | 0, s => s
  | n + 1, s =>
    dsEmit n
      { s with
        instructions := s.instructions ++
          [{ rtype := "DATA", bytes := [0], address := s.currentAddress }],
        currentAddress := s.currentAddress + 1 }

/-- Skip over newline/comment tokens from an index (the look-ahead loops in
Parser.parseOperand's pass-2 `(label)` detection). -/
def skipNLComment (tokens : List Token) : Nat → Nat → Nat
  | 0, i => i
  | fuel + 1, i =>
    match tokens.get? i with
    | some t =>
      if t.ttype = .newline ∨ t.ttype = .comment then
        skipNLComment tokens fuel (i + 1)
      else i
    | none => i

/-- Pass-2 `(label)` scan in Parser.parseOperand: starting just after the
left paren, look for LABEL then RPAREN (skipping newlines/comments), and
report the label name and the position just past the RPAREN. -/
def scanLabelParen (s : PState) : Option (String × Nat) :=
  let i := skipNLComment s.tokens (s.tokens.length + 1) s.pos
  match s.tokAt i with
  | some t =>
    if t.ttype = .label then
      let j := skipNLComment s.tokens (s.tokens.length + 1) (i + 1)
      match s.tokAt j with
      | some nt => if nt.ttype = .rparen then some (t.sval, j + 1) else none
      | none => none
    else none
  | none => none

/-- Parser.parseOperand. -/
def parseOperand (s : PState) : PRes Operand :=
  if s.check .lparen then
    let s := s.bump
    if s.check .register then
      match s.peek with
      | some reg =>
        let s := s.bump
        match consume s .rparen with
        | .error e => .error e
        | .ok (_, s) =>
          if reg.sval = "HL" then .ok (.str "(HL)", s)
          else if reg.sval = "BC" then .ok (.str "(BC)", s)
          else if reg.sval = "DE" then .ok (.str "(DE)", s)
          else .error ("Invalid register in parentheses: " ++ reg.sval, s)
      | none => .error ("Invalid register in parentheses: undefined", s)
    else
      match (if s.pass = 2 then scanLabelParen s else none) with
      | some (name, newPos) => .ok (.labelRef name, { s with pos := newPos })
      | none =>
        match parseExpressionValue s true with
        | .error e => .error e
        | .ok (addr, s) =>
          match consume s .rparen with
          | .error e => .error e
          | .ok (_, s) => .ok (.num addr, s)
  else
    let nextType := (s.tokAt (s.pos + 1)).map Token.ttype
    if s.check .operator ∧ s.peek.map Token.sval == some "$" then
      match parseExpressionValue s true with
      | .error e => .error e
      | .ok (v, s) => .ok (.num v, s)
    else if s.check .number then
      match parseExpressionValue s true with
      | .error e => .error e
      | .ok (v, s) => .ok (.num v, s)
    else if s.check .register then
      match s.peek with
      | some reg => .ok (.str reg.sval, s.bump)
      | none => .error ("Unexpected operand token: undefined", s)
    else if s.check .label then
      match s.peek with
      | some labelToken =>
        if (CONDITIONS labelToken.sval).isSome then
          .ok (.str labelToken.sval, s.bump)
        else if nextType == some .operator || nextType == some .lparen then
          match parseExpressionValue s true with
          | .error e => .error e
          | .ok (v, s) => .ok (.num v, s)
        else
          let s := s.bump
          if s.pass = 2 then .ok (.labelRef labelToken.sval, s)
          else
            match lookupSym s.symbolTable labelToken.sval with
            | none => .ok (.num 0, s)
            | some sym => .ok (.num sym.address, s)
      | none => .error ("Unexpected operand token: undefined", s)
    else
      .error ("Unexpected operand token: " ++
        (match s.peek with
         | some t => tokTypeName t.ttype
         | none => "undefined"), s)

/-- Comma loop of Parser.parseOperands. -/
def parseOperandsLoop : Nat → PState → List Operand → PRes (List Operand)
  | 0, s, acc => .ok (acc, s)
  | fuel + 1, s, acc =>
    if s.check .comma then
      match parseOperand s.bump with
      | .error e => .error e
      | .ok (op, s) => parseOperandsLoop fuel s (acc ++ [op])
    else .ok (acc, s)

/-- Parser.parseOperands. -/
def parseOperands (s : PState) : PRes (List Operand) :=
  if s.check .newline || s.isAtEnd then .ok ([], s)
  else
    match parseOperand s with
    | .error e => .error e
    | .ok (op, s) => parseOperandsLoop (s.tokens.length + 1) s [op]

/-- JS truthiness of a REG8 lookup (note `REG8['B'] = 0` is falsy). -/
def reg8Truthy (s : String) : Bool :=
  match REG8 s with
  | some n => decide (n ≠ 0)
  | none => false

/-- Parser.estimateInstructionSize (pass-2 address estimation). -/
def estimateInstructionSize (mnemonic : String) (operands : List Operand) : Nat :=
  if ["NOP", "HALT", "DI", "EI", "SCF", "CCF", "CPL", "DAA", "RLCA", "RRCA",
      "RLA", "RRA", "RET", "EXX"].contains mnemonic then 1
  else if ["LDIR", "LDDR", "LDI", "LDD", "RETI", "RETN", "NEG"].contains mnemonic then 2
  else if ["JP", "CALL"].contains mnemonic then 3
  else if ["JR", "DJNZ"].contains mnemonic then 2
  else if mnemonic = "LD" ∧ operands.length = 2 then
    match operands.get? 0, operands.get? 1 with
    | some op1, some op2 =>
      if (match op1 with | .num n => decide (n > 255) | _ => false) then 3
      else if (match op2 with | .num n => decide (n > 255) | _ => false) then 3
      else if (match op2, op1 with
               | .num n, .str r => decide (n ≤ 255) && (REG8 r).isSome
               | _, _ => false) then 2
      else if op1 = .str "(HL)" ∨ op2 = .str "(HL)" then 1
      else if (match op1, op2 with
               | .str a, .str b => reg8Truthy a && reg8Truthy b
               | _, _ => false) then 1
      else 2
    | _, _ => 2
  else if ["ADD", "ADC", "SUB", "SBC", "AND", "OR", "XOR", "CP"].contains mnemonic then
    if operands.length = 1 ∧
        (match operands.get? 0 with | some (.num _) => true | _ => false) = true then 2
    else 1
  else if ["INC", "DEC", "PUSH", "POP"].contains mnemonic then 1
  else if ["BIT", "SET", "RES", "RLC", "RRC", "RL", "RR", "SLA", "SRA", "SLL",
           "SRL"].contains mnemonic then 2
  else if ["IN", "OUT"].contains mnemonic then 2
  else 1

/-- Parser.parseInstruction: parse the operands, recover a `LABEL COLON`
prefix by looking back two and three tokens from the position after the
operands, emit the INSTRUCTION record, and advance by the size estimate. -/
def parseInstruction (s : PState) : PRes Unit :=
  match s.peek with
  | none => .ok ((), s.bump)
  | some mnemonic =>
    let s := s.bump
    match parseOperands s with
    | .error e => .error e
    | .ok (operands, s) =>
      let labelName : Option String :=
        if 1 < s.pos then
          match s.tokAt (s.pos - 2),
              (if 3 ≤ s.pos then s.tokAt (s.pos - 3) else none) with
          | some prevToken, some prevPrev =>
            if prevToken.ttype = .colon ∧ prevPrev.ttype = .label then
              some prevPrev.sval
            else none
          | _, _ => none
        else none
      let r : IRecord :=
        { rtype := "INSTRUCTION", mnemonic := mnemonic.sval,
          operands := operands, address := s.currentAddress, bytes := [],
          label := labelName }
      let size := estimateInstructionSize mnemonic.sval operands
      .ok ((), { s with instructions := s.instructions ++ [r],
                        currentAddress := s.currentAddress + size })

/-- Operand-scanning loop of Parser.calculateInstructionSize; the
accumulator is (hasImmediate, has16Bit, hasRegister, hasIndirect, count). -/
def calcScanLoop (mnem : String) :
    Nat → PState → Bool → Bool → Bool → Bool → Nat →
    PRes (Bool × Bool × Bool × Bool × Nat)
  | 0, s, hi, h16, hr, hind, cnt => .ok ((hi, h16, hr, hind, cnt), s)
  | fuel + 1, s, hi, h16, hr, hind, cnt =>
    if ¬ s.check .newline ∧ ¬ s.isAtEnd then
      if s.check .number || s.check .operator then
        match parseExpressionValue s true with
        | .ok (val, s) =>
          calcScanLoop mnem fuel s true (h16 || decide (val > 255 ∨ val < 0))
            hr hind (cnt + 1)
        | .error (_, sErr) =>
          -- catch: restore position, then consume a single number if present
          let s := { sErr with pos := s.pos }
          if s.check .number then calcScanLoop mnem fuel s.bump true h16 hr hind (cnt + 1)
          else .ok ((hi, h16, hr, hind, cnt), s)
      else if s.check .label then
        match s.peek with
        | some label =>
          if (CONDITIONS label.sval).isSome then
            calcScanLoop mnem fuel s.bump hi h16 hr hind (cnt + 1)
          else
            calcScanLoop mnem fuel s.bump hi
              (h16 || decide (mnem = "LD" ∨ mnem = "JP" ∨ mnem = "CALL"))
              hr hind (cnt + 1)
        | none => .ok ((hi, h16, hr, hind, cnt), s)
      else if s.check .register then
        calcScanLoop mnem fuel s.bump hi h16 true hind (cnt + 1)
      else if s.check .comma then
        calcScanLoop mnem fuel s.bump hi h16 hr hind cnt
      else if s.check .lparen then
        let s := s.bump
        if s.check .register then
          match consume s.bump .rparen with
          | .error e => .error e
          | .ok (_, s) => calcScanLoop mnem fuel s hi h16 hr true (cnt + 1)
        else
          -- (nn): assume 16-bit; evaluation errors are ignored
          let s :=
            match parseExpressionValue s true with
            | .ok (_, s') => s'
            | .error (_, s') => s'
          match consume s .rparen with
          | .error e => .error e
          | .ok (_, s) => calcScanLoop mnem fuel s hi true hr true (cnt + 1)
      else .ok ((hi, h16, hr, hind, cnt), s)
    else .ok ((hi, h16, hr, hind, cnt), s)

/-- Parser.calculateInstructionSize (the pass-1 sizer): look ahead over the
operands without permanently advancing, and return the instruction width. -/
def calculateInstructionSize (s : PState) : PRes Nat :=
  let startPos := s.pos
  match s.peek with
  | none => .ok (0, { s with pos := startPos })
  | some mnemonic =>
    if mnemonic.ttype ≠ .mnemonic then .ok (0, { s with pos := startPos })
    else
      let mnem := mnemonic.sval
      let s := s.bump
      if ["NOP", "HALT", "DI", "EI", "SCF", "CCF", "CPL", "DAA", "RLCA",
          "RRCA", "RLA", "RRA", "RET", "EXX", "EX DE,HL",
          "EX AF,AF\x27"].contains mnem then
        .ok (1, { s with pos := startPos })
      else if ["LDIR", "LDDR", "LDI", "LDD", "RETI", "RETN", "NEG"].contains mnem then
        .ok (2, { s with pos := startPos })
      else if ["JP", "CALL"].contains mnem then
        .ok (3, { skipToNewline s with pos := startPos })
      else if ["JR", "DJNZ"].contains mnem then
        .ok (2, { skipToNewline s with pos := startPos })
      else
        match calcScanLoop mnem (s.tokens.length + 1) s false false false false 0 with
        | .error e => .error e
        | .ok ((hasImmediate, has16Bit, hasRegister, hasIndirect, operandCount), s) =>
          let s := { s with pos := startPos }
          let size : Nat :=
            if mnem = "LD" then
              if operandCount = 2 then
                if has16Bit then 3
                else if hasImmediate ∧ hasRegister then 2
                else if hasRegister ∧ hasIndirect then 1
                else if hasRegister ∧ ¬ hasImmediate then 1
                else if hasImmediate ∧ hasIndirect then 2
                else 2
              else 2
            else if ["ADD", "ADC", "SUB", "SBC", "AND", "OR", "XOR",
                     "CP"].contains mnem then
              if hasImmediate then 2 else 1
            else if mnem = "ADD" ∧ operandCount = 2 ∧ hasRegister then 1
            else if ["INC", "DEC"].contains mnem then 1
            else if ["PUSH", "POP"].contains mnem then 1
            else if mnem = "RET" ∧ 0 < operandCount then 1
            else if mnem = "RST" then 1
            else if ["BIT", "SET", "RES", "RLC", "RRC", "RL", "RR", "SLA",
                     "SRA", "SLL", "SRL"].contains mnem then 2
            else if ["IN", "OUT"].contains mnem then 2
            else if has16Bit then 3
            else if hasImmediate then 2
            else 1
          .ok (size, s)

/-- The while-loop consuming the remainder after .END. -/
def consumeAll : Nat → PState → PState
  | 0, s => s
  | fuel + 1, s => if ¬ s.isAtEnd then consumeAll fuel s.bump else s

/-- Parser.parseDirectivePass1. -/
def parseDirectivePass1 (s : PState) : PRes Unit :=
  match s.peek with
  | none => .ok ((), skipToNewline s.bump)
  | some directive =>
    let s := s.bump
    let v := directive.sval
    if v = ".ORG" ∨ v = "ORG" then
      match parseExpressionValue s true with
      | .error e => .error e
      | .ok (addr, s) => .ok ((), skipToNewline { s with currentAddress := addr })
    else if v = ".EQU" ∨ v = "EQU" then
      let equLabel : Option String :=
        if 1 < s.pos then
          match s.tokAt (s.pos - 2) with
          | some prev => if prev.ttype = .label then some prev.sval else none
          | none => none
        else none
      match equLabel with
      | some lbl =>
        match parseExpressionValue s false with
        | .error e => .error e
        | .ok (value, s) => .ok ((), skipToNewline (defineSymbol s lbl value "EQU"))
      | none => .ok ((), skipToNewline s)
    else if v = ".DEFL" ∨ v = "DEFL" then
      let deflLabel : Option String :=
        if 1 < s.pos then
          match s.tokAt (s.pos - 2) with
          | some prev => if prev.ttype = .label then some prev.sval else none
          | none => none
        else none
      match deflLabel with
      | some lbl =>
        match parseExpressionValue s false with
        | .error e => .error e
        | .ok (value, s) => .ok ((), skipToNewline (defineSymbol s lbl value "DEFL"))
      | none => .ok ((), skipToNewline s)
    else if v = ".DB" ∨ v = "DB" ∨ v = "DEFB" then
      .ok ((), skipToNewline (parseDBPass1 s))
    else if v = ".DW" ∨ v = "DW" ∨ v = "DEFW" then
      .ok ((), skipToNewline (parseDWPass1 s))
    else if v = ".DS" ∨ v = "DS" ∨ v = "DEFS" then
      match parseExpressionValue s true with
      | .error e => .error e
      | .ok (count, s) =>
        .ok ((), skipToNewline { s with currentAddress := s.currentAddress + count })
    else if v = ".END" ∨ v = "END" then
      .ok ((), skipToNewline (consumeAll (s.tokens.length + 1) s))
    else .ok ((), skipToNewline s)

/-- Parser.parseDirectivePass2. -/
def parseDirectivePass2 (s : PState) : PRes Unit :=
  match s.peek with
  | none => .ok ((), skipToNewline s.bump)
  | some directive =>
    let s := s.bump
    let v := directive.sval
    if v = ".ORG" ∨ v = "ORG" then
      match parseExpressionValue s true with
      | .error e => .error e
      | .ok (addr, s) => .ok ((), skipToNewline { s with currentAddress := addr })
    else if v = ".EQU" ∨ v = "EQU" ∨ v = ".DEFL" ∨ v = "DEFL" then
      let s := if s.check .label then s.bump else s
      let s := if s.check .comma then s.bump else s
      match parseExpressionValue s true with
      | .error e => .error e
      | .ok (_, s) => .ok ((), skipToNewline s)
    else if v = ".DB" ∨ v = "DB" ∨ v = "DEFB" then
      match parseDBPass2 s with
      | .error e => .error e
      | .ok ((), s) => .ok ((), skipToNewline s)
    else if v = ".DW" ∨ v = "DW" ∨ v = "DEFW" then
      match parseDWPass2 s with
      | .error e => .error e
      | .ok ((), s) => .ok ((), skipToNewline s)
    else if v = ".DS" ∨ v = "DS" ∨ v = "DEFS" then
      match parseExpressionValue s true with
      | .error e => .error e
      | .ok (count, s) => .ok ((), skipToNewline (dsEmit count.toNat s))
    else if v = ".END" ∨ v = "END" then
      .ok ((), skipToNewline (consumeAll (s.tokens.length + 1) s))
    else .ok ((), skipToNewline s)

/-- Leading-newline skipping at the start of each parseLine. -/
def skipNewlines : Nat → PState → PState
  | 0, s => s
  | fuel + 1, s => if s.check .newline then skipNewlines fuel s.bump else s

/-- Parser.parseLinePass1. -/
def parseLinePass1 (s : PState) : PRes Unit :=
  let s := skipNewlines (s.tokens.length + 1) s
  if s.isAtEnd then .ok ((), s)
  else
    let s :=
      if s.check .label ∧ s.checkNext .colon then
        match s.peek with
        | some label => defineSymbol s.bump.bump label.sval s.currentAddress
        | none => s
      else s
    let s :=
      if s.check .label ∧ ¬ s.checkNext .colon then
        match s.peek, s.tokAt (s.pos + 1) with
        | some label, some nextToken =>
          if nextToken.ttype = .directive then
            let dv := nextToken.sval.toUpper
            if dv ≠ ".EQU" ∧ dv ≠ "EQU" ∧ dv ≠ ".DEFL" ∧ dv ≠ "DEFL" then
              defineSymbol s.bump label.sval s.currentAddress
            else s.bump
          else s
        | _, _ => s
      else s
    if s.check .directive then parseDirectivePass1 s
    else if s.check .mnemonic then
      match calculateInstructionSize s with
      | .error e => .error e
      | .ok (size, s) =>
        .ok ((), skipToNewline { s with currentAddress := s.currentAddress + size })
    else .ok ((), skipToNewline s)

/-- Parser.parseLinePass2. -/
def parseLinePass2 (s : PState) : PRes Unit :=
  let s := skipNewlines (s.tokens.length + 1) s
  if s.isAtEnd then .ok ((), s)
  else
    let s :=
      if s.check .label ∧ s.checkNext .colon then
        -- both JS branches advance past the label and the colon
        s.bump.bump
      else s
    let s :=
      if s.check .label ∧ ¬ s.checkNext .colon then
        match s.tokAt (s.pos + 1) with
        | some nextToken => if nextToken.ttype = .directive then s.bump else s
        | none => s
      else s
    if s.check .directive then parseDirectivePass2 s
    else if s.check .mnemonic then parseInstruction s
    else .ok ((), skipToNewline s)

/-- Pass-1 driver loop of Parser.parse. -/
def runPass1 : Nat → PState → PState
  | 0, s => s
  | fuel + 1, s =>
    if s.isAtEnd then s
    else
      match parseLinePass1 s with
      | .ok ((), s') => runPass1 fuel s'
      | .error (msg, s') =>
        runPass1 fuel
          (synchronize { s' with errors := s'.errors ++ [⟨msg, s'.currentLine, none⟩] })

/-- Pass-2 driver loop of Parser.parse. -/
def runPass2 : Nat → PState → PState
  | 0, s => s
  | fuel + 1, s =>
    if s.isAtEnd then s
    else
      match parseLinePass2 s with
      | .ok ((), s') => runPass2 fuel s'
      | .error (msg, s') =>
        runPass2 fuel
          (synchronize { s' with errors := s'.errors ++ [⟨msg, s'.currentLine, none⟩] })

/-- Result aggregate of Parser.parse. -/
structure ParseOut where
  instructions : List IRecord
  symbolTable : SymTable
  errors : List Diag
  warnings : List Diag
  startAddress : Int
deriving Repr, DecidableEq

/-- Parser.parse: strip comments on intake, run pass 1 then pass 2 (each
parseLine consumes at least one token, so fuel = token count + 1 covers the
drivers), and return the aggregate. The returned startAddress is the
constant MEMORY.DEFAULT_ORG, exactly as in the source. -/
def parse (tokens : List Token) : ParseOut :=
  let toks := tokens.filter (fun t => t.ttype ≠ .comment)
  let s0 : PState :=
    { tokens := toks, pos := 0, currentAddress := DEFAULT_ORG, pass := 1 }
  let s1 := runPass1 (toks.length + 1) s0
  let s2 := runPass2 (toks.length + 1)
    { s1 with pass := 2, pos := 0, currentAddress := DEFAULT_ORG,
              instructions := [] }
  { instructions := s2.instructions, symbolTable := s2.symbolTable,
    errors := s2.errors, warnings := s2.warnings,
    startAddress := DEFAULT_ORG }

/-! ## Opcode encoders (opcodes.js) -/

/-- JS destructuring access `operands[i]` (undefined when out of range). -/
def opAt (operands : List Operand) (i : Nat) : Option Operand := operands.get? i

/-- Rendering of a possibly-undefined operand inside a JS template string. -/
def opToString : Option Operand → String
  | some o => operandToString o
  | none => "undefined"

/-- Does this (possibly undefined) operand hold a JS number? -/
def opIsNum : Option Operand → Bool
  | some (.num _) => true
  | _ => false

/-- Numeric value of an operand known to hold a number (0 otherwise; only
read under an opIsNum guard). -/
def opNum : Option Operand → Int
  | some (.num n) => n
  | _ => 0

/-- Strict string equality test `op === "s"`. -/
def opEqStr (o : Option Operand) (s : String) : Bool := o == some (.str s)

/-- `REG8[op]` for a possibly-undefined operand (a non-string key reads as
undefined). -/
def opReg8 : Option Operand → Option Nat
  | some (.str s) => REG8 s
  | _ => none

/-- `REG16[op]`. -/
def opReg16 : Option Operand → Option Nat
  | some (.str s) => REG16 s
  | _ => none

/-- Is the operand a LABEL_REF marker object? -/
def opIsLabelRef : Option Operand → Bool
  | some (.labelRef _) => true
  | _ => false

/-- Is the operand a string with a defined CONDITIONS entry? -/
def opIsCond : Option Operand → Bool
  | some (.str cc) => (CONDITIONS cc).isSome
  | _ => false

/-- The operand's string content ("" when not a string; only read under a
string guard). -/
def opStr : Option Operand → String
  | some (.str s) => s
  | _ => ""

/-- Is the operand a string with a defined conditional-JR opcode? -/
def opIsJrCC (jr : String → Option Nat) : Option Operand → Bool
  | some (.str cc) => (jr cc).isSome
  | _ => false

/-- SIMPLE_INSTRUCTIONS table: optional prefix byte, opcode, size. -/
def SIMPLE_INSTRUCTIONS (m : String) : Option (Option Int × Int × Nat) :=
  if m = "NOP" then some (none, 0x00, 1)
  else if m = "HALT" then some (none, 0x76, 1)
  else if m = "DI" then some (none, 0xF3, 1)
  else if m = "EI" then some (none, 0xFB, 1)
  else if m = "EXX" then some (none, 0xD9, 1)
  else if m = "SCF" then some (none, 0x37, 1)
  else if m = "CCF" then some (none, 0x3F, 1)
  else if m = "CPL" then some (none, 0x2F, 1)
  else if m = "DAA" then some (none, 0x27, 1)
  else if m = "RLCA" then some (none, 0x07, 1)
  else if m = "RRCA" then some (none, 0x0F, 1)
  else if m = "RLA" then some (none, 0x17, 1)
  else if m = "RRA" then some (none, 0x1F, 1)
  else if m = "RET" then some (none, 0xC9, 1)
  else if m = "RETI" then some (some 0xED, 0x4D, 2)
  else if m = "RETN" then some (some 0xED, 0x45, 2)
  else if m = "NEG" then some (some 0xED, 0x44, 2)
  else if m = "EX DE,HL" then some (none, 0xEB, 1)
  else if m = "EX AF,AF\x27" then some (none, 0x08, 1)
  else if m = "EX (SP),HL" then some (none, 0xE3, 1)
  else if m = "LDI" then some (some 0xED, 0xA0, 2)
  else if m = "LDIR" then some (some 0xED, 0xB0, 2)
  else if m = "LDD" then some (some 0xED, 0xA8, 2)
  else if m = "LDDR" then some (some 0xED, 0xB8, 2)
  else none

/-- encodeLD from opcodes.js, an ordered pattern chain over `[dest, src]`.
The source's `LD A, LABEL_REF` branch reads `src.address`, a field the
parser's LABEL_REF markers never carry, so its `addr > 255` guard compares
undefined and is never satisfied; it is therefore omitted here. In the
`(nn),HL` / `HL,(nn)` branches `dest.address || 0` likewise yields 0 for a
LABEL_REF. -/
def encodeLD (operands : List Operand) : Except String Encoding :=
  let dest := opAt operands 0
  let src := opAt operands 1
  if (opReg8 dest).isSome ∧ (opReg8 src).isSome then
    .ok ⟨[Int.ofNat (0x40 ||| (((opReg8 dest).getD 0) <<< 3) ||| (opReg8 src).getD 0)], 1⟩
  else if (opReg8 dest).isSome ∧ opIsNum src then
    .ok ⟨[Int.ofNat (0x06 ||| (((opReg8 dest).getD 0) <<< 3)), jsAnd (opNum src) 255], 2⟩
  else if (opReg8 dest).isSome ∧ opEqStr src "(HL)" then
    .ok ⟨[Int.ofNat (0x46 ||| (((opReg8 dest).getD 0) <<< 3))], 1⟩
  else if opEqStr dest "(HL)" ∧ (opReg8 src).isSome then
    .ok ⟨[Int.ofNat (0x70 ||| (opReg8 src).getD 0)], 1⟩
  else if opEqStr dest "(HL)" ∧ opIsNum src then
    .ok ⟨[0x36, jsAnd (opNum src) 255], 2⟩
  else if opEqStr dest "A" ∧ opEqStr src "(BC)" then .ok ⟨[0x0A], 1⟩
  else if opEqStr dest "A" ∧ opEqStr src "(DE)" then .ok ⟨[0x1A], 1⟩
  else if opEqStr dest "A" ∧ opIsNum src ∧ opNum src > 255 then
    .ok ⟨[0x3A, jsAnd (opNum src) 255, jsAnd (jsShr (opNum src) 8) 255], 3⟩
  else if opEqStr dest "A" ∧ opIsNum src ∧ opNum src ≤ 255 then
    .ok ⟨[0x3E, jsAnd (opNum src) 255], 2⟩
  else if opEqStr dest "(BC)" ∧ opEqStr src "A" then .ok ⟨[0x02], 1⟩
  else if opEqStr dest "(DE)" ∧ opEqStr src "A" then .ok ⟨[0x12], 1⟩
  else if opIsNum dest ∧ opEqStr src "A" then
    .ok ⟨[0x32, jsAnd (opNum dest) 255, jsAnd (jsShr (opNum dest) 8) 255], 3⟩
  else if (opReg16 dest).isSome ∧ opIsNum src then
    .ok ⟨[Int.ofNat (0x01 ||| (((opReg16 dest).getD 0) <<< 4)),
          jsAnd (opNum src) 255, jsAnd (jsShr (opNum src) 8) 255], 3⟩
  else if opEqStr dest "SP" ∧ opEqStr src "HL" then .ok ⟨[0xF9], 1⟩
  else if (opIsNum dest || opIsLabelRef dest) ∧ opEqStr src "HL" then
    let addr := if opIsNum dest then opNum dest else 0
    .ok ⟨[0x22, jsAnd addr 255, jsAnd (jsShr addr 8) 255], 3⟩
  else if opEqStr dest "HL" ∧ (opIsNum src || opIsLabelRef src) then
    let addr := if opIsNum src then opNum src else 0
    .ok ⟨[0x2A, jsAnd addr 255, jsAnd (jsShr addr 8) 255], 3⟩
  else
    .error ("Unsupported LD pattern: " ++ opToString dest ++ ", " ++ opToString src)

/-- encodeJP. -/
def encodeJP (operands : List Operand) : Except String Encoding :=
  if operands.length = 1 ∧ opEqStr (opAt operands 0) "(HL)" then .ok ⟨[0xE9], 1⟩
  else if operands.length = 1 ∧ opIsNum (opAt operands 0) then
    let target := opNum (opAt operands 0)
    .ok ⟨[0xC3, jsAnd target 255, jsAnd (jsShr target 8) 255], 3⟩
  else if operands.length = 2 ∧ opIsCond (opAt operands 0) ∧
      opIsNum (opAt operands 1) then
    let cc := opStr (opAt operands 0)
    let target := opNum (opAt operands 1)
    .ok ⟨[Int.ofNat (0xC2 ||| (((CONDITIONS cc).getD 0) <<< 3)),
          jsAnd target 255, jsAnd (jsShr target 8) 255], 3⟩
  else .error ("Unsupported JP pattern: " ++ joinOperands operands)

/-- JR conditional opcode table local to encodeJR. -/
def jrCCopcode (cc : String) : Option Nat :=
  if cc = "NZ" then some 0x20 else if cc = "Z" then some 0x28
  else if cc = "NC" then some 0x30 else if cc = "C" then some 0x38
  else none

/-- encodeJR: the offset argument is already PC-relative; negative offsets
are converted to the unsigned byte `0x100 + offset` before masking. -/
def encodeJR (operands : List Operand) : Except String Encoding :=
  if operands.length = 1 ∧ opIsNum (opAt operands 0) then
    let offset := opNum (opAt operands 0)
    let relOffset := if offset < 0 then 0x100 + offset else offset
    .ok ⟨[0x18, jsAnd relOffset 255], 2⟩
  else if operands.length = 2 ∧ opIsNum (opAt operands 1) ∧
      opIsJrCC jrCCopcode (opAt operands 0) then
    let cc := opStr (opAt operands 0)
    let offset := opNum (opAt operands 1)
    let relOffset := if offset < 0 then 0x100 + offset else offset
    .ok ⟨[Int.ofNat ((jrCCopcode cc).getD 0), jsAnd relOffset 255], 2⟩
  else .error ("Unsupported JR pattern: " ++ joinOperands operands)

/-- encodeDJNZ. -/
def encodeDJNZ (offset : Option Operand) : Except String Encoding :=
  match offset with
  | some (.num n) =>
    let relOffset := if n < 0 then 0x100 + n else n
    .ok ⟨[0x10, jsAnd relOffset 255], 2⟩
  | other => .error ("Invalid DJNZ offset: " ++ opToString other)

/-- ALU_OPCODES table. -/
def ALU_OPCODES (m : String) : Nat :=
  if m = "ADD" then 0x80 else if m = "ADC" then 0x88
  else if m = "SUB" then 0x90 else if m = "SBC" then 0x98
  else if m = "AND" then 0xA0 else if m = "XOR" then 0xA8
  else if m = "OR" then 0xB0 else if m = "CP" then 0xB8
  else 0

/-- ALU_IMM_OPCODES table. -/
def ALU_IMM_OPCODES (m : String) : Nat :=
  if m = "ADD" then 0xC6 else if m = "ADC" then 0xCE
  else if m = "SUB" then 0xD6 else if m = "SBC" then 0xDE
  else if m = "AND" then 0xE6 else if m = "XOR" then 0xEE
  else if m = "OR" then 0xF6 else if m = "CP" then 0xFE
  else 0

/-- Single-operand body of encodeALU (register, (HL), or immediate). -/
def encodeALUcore (mnemonic : String) (operands : List Operand) :
    Except String Encoding :=
  let op := opAt operands 0
  if (opReg8 op).isSome then
    .ok ⟨[Int.ofNat (ALU_OPCODES mnemonic ||| (opReg8 op).getD 0)], 1⟩
  else if opEqStr op "(HL)" then
    .ok ⟨[Int.ofNat (ALU_OPCODES mnemonic ||| 6)], 1⟩
  else if opIsNum op then
    .ok ⟨[Int.ofNat (ALU_IMM_OPCODES mnemonic), jsAnd (opNum op) 255], 2⟩
  else
    .error ("Unsupported " ++ mnemonic ++ " pattern: " ++ joinOperands operands)

/-- encodeALU: one operand directly, or `A, x` recursively on `[x]`. -/
def encodeALU (mnemonic : String) (operands : List Operand) :
    Except String Encoding :=
  if operands.length = 1 then encodeALUcore mnemonic operands
  else if operands.length = 2 ∧ opEqStr (opAt operands 0) "A" then
    match opAt operands 1 with
    | some op2 => encodeALUcore mnemonic [op2]
    | none => .error ("Unsupported " ++ mnemonic ++ " pattern: " ++ joinOperands operands)
  else
    .error ("Unsupported " ++ mnemonic ++ " pattern: " ++ joinOperands operands)

/-- encodeADDHL. -/
def encodeADDHL (operands : List Operand) : Except String Encoding :=
  if operands.length = 2 ∧ opEqStr (opAt operands 0) "HL" ∧
      (opReg16 (opAt operands 1)).isSome then
    .ok ⟨[Int.ofNat (0x09 ||| (((opReg16 (opAt operands 1)).getD 0) <<< 4))], 1⟩
  else .error ("Unsupported ADD HL pattern: " ++ joinOperands operands)

/-- encodeINC. -/
def encodeINC (operand : Option Operand) : Except String Encoding :=
  if (opReg8 operand).isSome then
    .ok ⟨[Int.ofNat (0x04 ||| (((opReg8 operand).getD 0) <<< 3))], 1⟩
  else if opEqStr operand "(HL)" then .ok ⟨[0x34], 1⟩
  else if (opReg16 operand).isSome then
    .ok ⟨[Int.ofNat (0x03 ||| (((opReg16 operand).getD 0) <<< 4))], 1⟩
  else .error ("Unsupported INC operand: " ++ opToString operand)

/-- encodeDEC. -/
def encodeDEC (operand : Option Operand) : Except String Encoding :=
  if (opReg8 operand).isSome then
    .ok ⟨[Int.ofNat (0x05 ||| (((opReg8 operand).getD 0) <<< 3))], 1⟩
  else if opEqStr operand "(HL)" then .ok ⟨[0x35], 1⟩
  else if (opReg16 operand).isSome then
    .ok ⟨[Int.ofNat (0x0B ||| (((opReg16 operand).getD 0) <<< 4))], 1⟩
  else .error ("Unsupported DEC operand: " ++ opToString operand)

/-- `STACK_REG[op]`. -/
def opStackReg : Option Operand → Option Nat
  | some (.str s) => STACK_REG s
  | _ => none

/-- encodePUSH. -/
def encodePUSH (operand : Option Operand) : Except String Encoding :=
  if (opStackReg operand).isSome then
    .ok ⟨[Int.ofNat (0xC5 ||| (((opStackReg operand).getD 0) <<< 4))], 1⟩
  else .error ("Unsupported PUSH operand: " ++ opToString operand)

/-- encodePOP. -/
def encodePOP (operand : Option Operand) : Except String Encoding :=
  if (opStackReg operand).isSome then
    .ok ⟨[Int.ofNat (0xC1 ||| (((opStackReg operand).getD 0) <<< 4))], 1⟩
  else .error ("Unsupported POP operand: " ++ opToString operand)

/-- encodeCALL. -/
def encodeCALL (operands : List Operand) : Except String Encoding :=
  if operands.length = 1 ∧ opIsNum (opAt operands 0) then
    let target := opNum (opAt operands 0)
    .ok ⟨[0xCD, jsAnd target 255, jsAnd (jsShr target 8) 255], 3⟩
  else if operands.length = 2 ∧ opIsCond (opAt operands 0) ∧
      opIsNum (opAt operands 1) then
    let cc := opStr (opAt operands 0)
    let target := opNum (opAt operands 1)
    .ok ⟨[Int.ofNat (0xC4 ||| (((CONDITIONS cc).getD 0) <<< 3)),
          jsAnd target 255, jsAnd (jsShr target 8) 255], 3⟩
  else .error ("Unsupported CALL pattern: " ++ joinOperands operands)

/-- encodeRETCC. -/
def encodeRETCC (cc : Option Operand) : Except String Encoding :=
  match cc with
  | some (.str s) =>
    if (CONDITIONS s).isSome then
      .ok ⟨[Int.ofNat (0xC0 ||| (((CONDITIONS s).getD 0) <<< 3))], 1⟩
    else .error ("Unsupported RET condition: " ++ s)
  | other => .error ("Unsupported RET condition: " ++ opToString other)

/-- encodeRST: the address must be a number whose bits lie inside 0x38 and
which is within 0..0x38; the opcode is `0xC7 | (addr & 0x38)`. -/
def encodeRST (addr : Option Operand) : Except String Encoding :=
  match addr with
  | some (.num n) =>
    if jsAnd n 0x38 = n ∧ 0 ≤ n ∧ n ≤ 0x38 then
      .ok ⟨[jsOr 0xC7 (jsAnd n 0x38)], 1⟩
    else .error ("Invalid RST address: " ++ toString n)
  | other => .error ("Invalid RST address: " ++ opToString other)

/-- CB_INSTRUCTIONS base-opcode table. -/
def CB_INSTRUCTIONS (m : String) : Nat :=
  if m = "RLC" then 0x00 else if m = "RRC" then 0x08
  else if m = "RL" then 0x10 else if m = "RR" then 0x18
  else if m = "SLA" then 0x20 else if m = "SRA" then 0x28
  else if m = "SLL" then 0x30 else if m = "SRL" then 0x38
  else if m = "BIT" then 0x40 else if m = "RES" then 0x80
  else if m = "SET" then 0xC0
  else 0

/-- encodeCB: BIT/SET/RES take a bit number 0..7 and a register or (HL);
the rotates/shifts take a single register or (HL). -/
def encodeCB (mnemonic : String) (operands : List Operand) :
    Except String Encoding :=
  if mnemonic = "BIT" ∨ mnemonic = "SET" ∨ mnemonic = "RES" then
    if operands.length = 2 ∧ opIsNum (opAt operands 0) ∧
        0 ≤ opNum (opAt operands 0) ∧ opNum (opAt operands 0) ≤ 7 then
      let bit := (opNum (opAt operands 0)).toNat
      let reg := opAt operands 1
      if opEqStr reg "(HL)" then
        .ok ⟨[0xCB, Int.ofNat (CB_INSTRUCTIONS mnemonic ||| (bit <<< 3) ||| 6)], 2⟩
      else if (opReg8 reg).isSome then
        .ok ⟨[0xCB, Int.ofNat (CB_INSTRUCTIONS mnemonic ||| (bit <<< 3) |||
              (opReg8 reg).getD 0)], 2⟩
      else .error ("Unsupported CB instruction: " ++ mnemonic ++ " " ++
        joinOperands operands)
    else .error ("Unsupported CB instruction: " ++ mnemonic ++ " " ++
      joinOperands operands)
  else
    if operands.length = 1 then
      let reg := opAt operands 0
      if opEqStr reg "(HL)" then
        .ok ⟨[0xCB, Int.ofNat (CB_INSTRUCTIONS mnemonic ||| 6)], 2⟩
      else if (opReg8 reg).isSome then
        .ok ⟨[0xCB, Int.ofNat (CB_INSTRUCTIONS mnemonic ||| (opReg8 reg).getD 0)], 2⟩
      else .error ("Unsupported CB instruction: " ++ mnemonic ++ " " ++
        joinOperands operands)
    else .error ("Unsupported CB instruction: " ++ mnemonic ++ " " ++
      joinOperands operands)

/-- encodeIN. -/
def encodeIN (operands : List Operand) : Except String Encoding :=
  if operands.length = 2 ∧ opEqStr (opAt operands 0) "A" ∧
      opIsNum (opAt operands 1) then
    .ok ⟨[0xDB, jsAnd (opNum (opAt operands 1)) 255], 2⟩
  else .error ("Unsupported IN pattern: " ++ joinOperands operands)

/-- encodeOUT. -/
def encodeOUT (operands : List Operand) : Except String Encoding :=
  if operands.length = 2 ∧ opEqStr (opAt operands 1) "A" ∧
      opIsNum (opAt operands 0) then
    .ok ⟨[0xD3, jsAnd (opNum (opAt operands 0)) 255], 2⟩
  else .error ("Unsupported OUT pattern: " ++ joinOperands operands)

/-! ## Code generator (codegen.js) -/

/-- CodeGenerator.resolveOperands per-operand step: LABEL_REF markers and
bare non-register strings resolve through the symbol table (hard error when
absent); registers, conditions, and numbers pass through. The JS method's
second parameter (a current address) is never read. -/
def resolveOperand (tab : SymTable) (op : Operand) : Except String Operand :=
  match op with
  | .labelRef name =>
    match lookupSym tab name with
    | some sym => .ok (.num sym.address)
    | none => .error ("Undefined symbol: " ++ name)
  | .num n => .ok (.num n)
  | .str s =>
    if ["A", "B", "C", "D", "E", "H", "L", "(HL)", "(BC)", "(DE)"].contains s then
      .ok (.str s)
    else if ["NZ", "Z", "NC", "C", "PO", "PE", "P", "M"].contains s then
      .ok (.str s)
    else if ["BC", "DE", "HL", "SP", "AF"].contains s then
      .ok (.str s)
    else
      match lookupSym tab s with
      | some sym => .ok (.num sym.address)
      | none => .error ("Undefined symbol: " ++ s)

/-- CodeGenerator.resolveOperands. -/
def resolveOperands (tab : SymTable) : List Operand → Except String (List Operand)
  | [] => .ok []
  | op :: rest =>
    match resolveOperand tab op with
    | .error e => .error e
    | .ok o =>
      match resolveOperands tab rest with
      | .error e => .error e
      | .ok os => .ok (o :: os)

/-- CodeGenerator.encodeInstruction: dispatch on the mnemonic. The JS method
saves/restores `this.currentAddress` around some branches, but nothing it
calls reads that field, so the result depends only on the symbol table and
the record's mnemonic, operands, and address. -/
def encodeInstruction (tab : SymTable) (inst : IRecord) : Except String Encoding :=
  match SIMPLE_INSTRUCTIONS inst.mnemonic with
  | some (some pre, opcode, size) => .ok ⟨[pre, opcode], size⟩
  | some (none, opcode, size) => .ok ⟨[opcode], size⟩
  | none =>
    if inst.mnemonic = "LD" then
      match resolveOperands tab inst.operands with
      | .error e => .error e
      | .ok resolved => encodeLD resolved
    else if inst.mnemonic = "JP" then
      match resolveOperands tab inst.operands with
      | .error e => .error e
      | .ok resolved => encodeJP resolved
    else if inst.mnemonic = "JR" then
      match resolveOperands tab inst.operands with
      | .error e => .error e
      | .ok resolved =>
        if resolved.length = 1 ∧ opIsNum (opAt resolved 0) then
          let target := opNum (opAt resolved 0)
          let offset := target - (inst.address + 2)
          if offset < -128 ∨ offset > 127 then
            .error ("Relative jump out of range: " ++ toString offset ++
              " (must be -128 to 127)")
          else encodeJR [.num offset]
        else if resolved.length = 2 ∧ opIsNum (opAt resolved 1) then
          let target := opNum (opAt resolved 1)
          let offset := target - (inst.address + 2)
          if offset < -128 ∨ offset > 127 then
            .error ("Relative jump out of range: " ++ toString offset ++
              " (must be -128 to 127)")
          else
            match opAt resolved 0 with
            | some cc => encodeJR [cc, .num offset]
            | none => encodeJR [.num offset]
        else encodeJR resolved
    else if inst.mnemonic = "DJNZ" then
      match resolveOperands tab inst.operands with
      | .error e => .error e
      | .ok resolved =>
        if opIsNum (opAt resolved 0) then
          let target := opNum (opAt resolved 0)
          let offset := target - (inst.address + 2)
          if offset < -128 ∨ offset > 127 then
            .error ("Relative jump out of range: " ++ toString offset ++
              " (must be -128 to 127)")
          else encodeDJNZ (some (.num offset))
        else encodeDJNZ (opAt resolved 0)
    else if inst.mnemonic = "ADD" ∧ inst.operands.length = 2 ∧
        opEqStr (opAt inst.operands 0) "HL" then
      match resolveOperands tab inst.operands with
      | .error e => .error e
      | .ok resolved => encodeADDHL resolved
    else if ["ADD", "ADC", "SUB", "SBC", "AND", "OR", "XOR",
             "CP"].contains inst.mnemonic then
      match resolveOperands tab inst.operands with
      | .error e => .error e
      | .ok resolved => encodeALU inst.mnemonic resolved
    else if inst.mnemonic = "INC" then
      match resolveOperands tab inst.operands with
      | .error e => .error e
      | .ok resolved => encodeINC (opAt resolved 0)
    else if inst.mnemonic = "DEC" then
      match resolveOperands tab inst.operands with
      | .error e => .error e
      | .ok resolved => encodeDEC (opAt resolved 0)
    else if inst.mnemonic = "PUSH" then
      match resolveOperands tab inst.operands with
      | .error e => .error e
      | .ok resolved => encodePUSH (opAt resolved 0)
    else if inst.mnemonic = "POP" then
      match resolveOperands tab inst.operands with
      | .error e => .error e
      | .ok resolved => encodePOP (opAt resolved 0)
    else if inst.mnemonic = "CALL" then
      match resolveOperands tab inst.operands with
      | .error e => .error e
      | .ok resolved => encodeCALL resolved
    else if inst.mnemonic = "RET" then
      if inst.operands.length = 0 then .ok ⟨[0xC9], 1⟩
      else
        match resolveOperands tab inst.operands with
        | .error e => .error e
        | .ok resolved => encodeRETCC (opAt resolved 0)
    else if inst.mnemonic = "RST" then
      match resolveOperands tab inst.operands with
      | .error e => .error e
      | .ok resolved => encodeRST (opAt resolved 0)
    else if ["RLC", "RRC", "RL", "RR", "SLA", "SRA", "SLL", "SRL", "BIT",
             "SET", "RES"].contains inst.mnemonic then
      match resolveOperands tab inst.operands with
      | .error e => .error e
      | .ok resolved => encodeCB inst.mnemonic resolved
    else if inst.mnemonic = "IN" then
      match resolveOperands tab inst.operands with
      | .error e => .error e
      | .ok resolved => encodeIN resolved
    else if inst.mnemonic = "OUT" then
      match resolveOperands tab inst.operands with
      | .error e => .error e
      | .ok resolved => encodeOUT resolved
    else .error ("Unsupported instruction: " ++ inst.mnemonic)

/-- First pass of CodeGenerator.generate: walk the records in order,
assign each its address from the running counter, bind any attached label
to that address, encode instructions (wrapping errors with the address),
and advance the counter by the encoded byte count. Returns the updated
symbol table, final counter, and the records in order. -/
def genPass1 (tab : SymTable) (cur : Int) :
    List IRecord → Except String (SymTable × Int × List IRecord)
  | [] => .ok (tab, cur, [])
  | inst :: rest =>
    if inst.rtype = "DATA" then
      let tab' :=
        match inst.label with
        | some l => insertSym tab l ⟨cur, "LABEL"⟩
        | none => tab
      match genPass1 tab' (cur + inst.bytes.length) rest with
      | .error e => .error e
      | .ok (t, c, out) => .ok (t, c, { inst with address := cur } :: out)
    else if inst.rtype = "INSTRUCTION" then
      let inst0 := { inst with address := cur }
      let tab' :=
        match inst.label with
        | some l => insertSym tab l ⟨cur, "LABEL"⟩
        | none => tab
      match encodeInstruction tab' inst0 with
      | .error msg => .error ("Line " ++ toString cur ++ ": " ++ msg)
      | .ok enc =>
        match genPass1 tab' (cur + enc.bytes.length) rest with
        | .error e => .error e
        | .ok (t, c, out) => .ok (t, c, { inst0 with bytes := enc.bytes } :: out)
    else
      genPass1 tab cur rest

/-- One record of the second generate pass: instructions whose operands
still contain LABEL_REF markers are re-encoded against the completed symbol
table; a re-encoding failure only warns and keeps the previous bytes. -/
def reencode (tab : SymTable) (inst : IRecord) : IRecord :=
  if inst.rtype = "INSTRUCTION" ∧
      inst.operands.any (fun op => match op with | .labelRef _ => true | _ => false) then
    match encodeInstruction tab inst with
    | .ok enc => { inst with bytes := enc.bytes }
    | .error _ => inst
  else inst

/-- Second pass of CodeGenerator.generate. -/
def genPass2 (tab : SymTable) (l : List IRecord) : List IRecord :=
  l.map (reencode tab)

/-- CodeGenerator.generate. -/
def generate (tab : SymTable) (cur : Int) (insts : List IRecord) :
    Except String (SymTable × List IRecord) :=
  match genPass1 tab cur insts with
  | .error e => .error e
  | .ok (t, _, out) => .ok (t, genPass2 t out)

/-! ## Assembler facade (assembler.js) -/

/-- Assembly result aggregate (bytes as the Uint8Array contents). -/
structure AResult where
  success : Bool
  bytes : List Nat
  startAddress : Int
  errors : List Diag
  warnings : List Diag
  symbolTable : SymTable
  instructions : List IRecord := []
deriving Repr, DecidableEq

/-- Z80Assembler.assembleBytes: concatenate all record bytes, masking each
to 8 bits on store. -/
def assembleBytes (instructions : List IRecord) : List Nat :=
  (instructions.map (fun inst => inst.bytes.map (fun b => (jsAnd b 255).toNat))).flatten

/-- Z80Assembler.failResult. -/
def failResult (message : String) : AResult :=
  { success := false, bytes := [], startAddress := DEFAULT_ORG,
    errors := [⟨message, 1, some 1⟩], warnings := [], symbolTable := [] }

/-- Z80Assembler.assemble: validate, tokenize, collect lexer ERROR tokens as
diagnostics, parse, generate, and aggregate. A code-generation exception is
converted to a single internal error result. (The non-string-input branch
is outside this typed model.) -/
def assemble (source : String) : AResult :=
  if (jsTrim source).length = 0 then failResult "Empty source"
  else
    let tokens := tokenize source
    let lexErrors := (tokens.filter (fun t => t.ttype = .error)).map
      (fun t => (⟨"Unexpected character: " ++ t.sval, t.line, some t.column⟩ : Diag))
    let presult := parse tokens
    let errors := lexErrors ++ presult.errors
    let warnings := presult.warnings
    match generate presult.symbolTable presult.startAddress presult.instructions with
    | .error msg => failResult ("Internal assembler error: " ++ msg)
    | .ok (tab, insts) =>
      { success := errors.isEmpty, bytes := assembleBytes insts,
        startAddress := presult.startAddress, errors := errors,
        warnings := warnings, symbolTable := tab, instructions := insts }

/-! ## Verification-side predicates over the embedded definitions -/

/-- Address/byte-length adjacency of a record list: the first record sits at
the given counter and each later record follows the previous one by the
length of its byte list. -/
def chainFrom : Int → List IRecord → Bool
  | _, [] => true
  | cur, r :: rest => (r.address == cur) && chainFrom (cur + r.bytes.length) rest

/-- Shape equivalence of operands: equal strings, or both numbers. -/
def shEq : Operand → Operand → Bool
  | .str a, .str b => a == b
  | .num _, .num _ => true
  | _, _ => false

/-- Shape equivalence of optional operands. -/
def optShEq : Option Operand → Option Operand → Bool
  | none, none => true
  | some a, some b => shEq a b
  | _, _ => false

/-- Table growth: every name bound in the first table is bound in the
second. -/
def tabLe (t1 t2 : SymTable) : Prop :=
  ∀ n, (lookupSym t1 n).isSome = true → (lookupSym t2 n).isSome = true

/-- One label-binding step of CodeGenerator.generate. -/
def bindStep (tab : SymTable) (r : IRecord) : SymTable :=
  match r.label with
  | some n => insertSym tab n ⟨r.address, "LABEL"⟩
  | none => tab

/-- All label bindings performed by CodeGenerator.generate over a record
list, in order. -/
def bindLabels (tab : SymTable) (l : List IRecord) : SymTable :=
  l.foldl bindStep tab

/-- The last record of a list carrying the given label. -/
def lastLabelled (l : List IRecord) (n : String) : Option IRecord :=
  l.reverse.find? (fun r => r.label == some n)

/-- The DATA records emitted by dsEmit starting at a given address. -/
def dsRecs : Int → Nat → List IRecord
  | _, 0 => []
  | a, n + 1 => { rtype := "DATA", bytes := [0], address := a } :: dsRecs (a + 1) n

/-- An instruction record whose byte list is reproducible by some encoding
against a table below the given one (the state every INSTRUCTION record is
left in by the first generate pass). -/
def Pass1Inv (t : SymTable) (r : IRecord) : Prop :=
  r.rtype = "INSTRUCTION" →
  ∃ tabi enc, tabLe tabi t ∧ encodeInstruction tabi r = .ok enc ∧
    enc.bytes = r.bytes

/-! ## Bridge lemmas for the JS 32-bit operators -/

theorem land255 (a : Nat) : Nat.land a 255 = a % 256 := by
  show a &&& 255 = a % 256
  apply Nat.eq_of_testBit_eq
  intro i
  rw [Nat.testBit_land]
  rw [show (256 : Nat) = 2 ^ 8 from rfl, Nat.testBit_mod_two_pow]
  by_cases h : i < 8
  · have h255 : Nat.testBit 255 i = true := by interval_cases i <;> decide
    simp [h255, h]
  · have h255 : Nat.testBit 255 i = false := Nat.testBit_lt_two_pow (by
      calc (255 : Nat) < 2 ^ 8 := by norm_num
      _ ≤ 2 ^ i := Nat.pow_le_pow_right (by norm_num) (by omega))
    simp [h255, h]

theorem toUint32_small (x : Int) (h0 : 0 ≤ x) (h1 : x < 4294967296) :
    toUint32 x = x.toNat := by
  unfold toUint32
  omega

theorem toInt32_small (x : Int) (h0 : 0 ≤ x) (h1 : x < 2147483648) :
    toInt32 x = x := by
  unfold toInt32
  omega

theorem jsAnd255 (x : Int) (h0 : 0 ≤ x) (h1 : x < 2147483648) :
    jsAnd x 255 = x % 256 := by
  unfold jsAnd
  rw [toUint32_small x h0 (by omega),
      toUint32_small 255 (by norm_num) (by norm_num)]
  have h2 : (255 : Int).toNat = 255 := rfl
  rw [h2, land255]
  have h3 : Int.ofNat (x.toNat % 256) = x % 256 := by
    rw [Int.ofNat_eq_natCast]
    push_cast
    omega
  rw [h3]
  apply toInt32_small
  · exact Int.emod_nonneg x (by norm_num)
  · have := Int.emod_lt_of_pos x (show (0 : Int) < 256 by norm_num)
    omega

theorem jsShr8 (x : Int) (h0 : 0 ≤ x) (h1 : x < 2147483648) :
    jsShr x 8 = x / 256 := by
  unfold jsShr
  rw [toInt32_small x h0 h1]
  have h2 : (2 : Int) ^ (8 % 32) = 256 := by norm_num
  rw [h2, Int.fdiv_eq_tdiv h0 (by norm_num), Int.tdiv_eq_ediv h0 (by norm_num)]

/-! ## Symbol-table lemmas -/

theorem lookupSym_nil (m : String) : lookupSym [] m = none := rfl

theorem lookupSym_cons (k : String) (w : Sym) (l : SymTable) (m : String) :
    lookupSym ((k, w) :: l) m = if k = m then some w else lookupSym l m := by
  simp only [lookupSym, List.find?]
  by_cases h : k = m <;> simp [h]

theorem lookup_insertSym_self (t : SymTable) (n : String) (v : Sym) :
    lookupSym (insertSym t n v) n = some v := by
  induction t with
  | nil => simp [insertSym, lookupSym_cons]
  | cons head rest ih =>
    obtain ⟨k, w⟩ := head
    by_cases hk : k = n
    · subst hk
      simp [insertSym, lookupSym_cons]
    · simp only [insertSym, if_neg hk]
      rw [lookupSym_cons, if_neg hk]
      exact ih

theorem lookup_insertSym_other (t : SymTable) (n m : String) (v : Sym)
    (h : m ≠ n) : lookupSym (insertSym t n v) m = lookupSym t m := by
  induction t with
  | nil =>
    show lookupSym [(n, v)] m = lookupSym [] m
    rw [lookupSym_cons, if_neg (fun h' => h h'.symm), lookupSym_nil]
  | cons head rest ih =>
    obtain ⟨k, w⟩ := head
    by_cases hk : k = n
    · subst hk
      have hred : insertSym ((k, w) :: rest) k v = (k, v) :: rest := by
        simp [insertSym]
      rw [hred, lookupSym_cons, lookupSym_cons,
        if_neg (fun h' => h h'.symm), if_neg (fun h' => h h'.symm)]
    · simp only [insertSym, if_neg hk]
      rw [lookupSym_cons, lookupSym_cons]
      by_cases hm : k = m
      · simp [hm]
      · simp [hm, ih]

/-! ## Claim C1 -/

theorem parse_startAddress (ts : List Token) :
    (parse ts).startAddress = DEFAULT_ORG := rfl

/-- Claim C1 (amended): for every source program, the `startAddress` field of
the result returned by assemble equals DEFAULT_ORG (0x4200) unconditionally -
the parser returns the constant MEMORY.DEFAULT_ORG regardless of any `.ORG`
directive - and the code generator initializes its program counter at this
same value (assemble passes `startAddress` as the generator's initial
counter). -/
theorem C1_startAddress_always_default (source : String) :
    (assemble source).startAddress = 0x4200 := by
  rw [assemble]
  split
  · rfl
  · rcases hg : generate (parse (tokenize source)).symbolTable
        (parse (tokenize source)).startAddress
        (parse (tokenize source)).instructions with msg | p
    · simp only [hg]
      rfl
    · obtain ⟨tab, insts⟩ := p
      simp only [hg]
      exact parse_startAddress _

/-- Claim C1 (counterexample): the program `.ORG $5000 / NOP / .END`
assembles successfully yet its reported startAddress is 0x4200, not the
first `.ORG` target 0x5000. -/
theorem C1_counterexample :
    (assemble ".ORG $5000\nNOP\n.END\n").success = true ∧
    (assemble ".ORG $5000\nNOP\n.END\n").startAddress = 0x4200 ∧
    (0x4200 : Int) ≠ 0x5000 := by
  refine ⟨by decide, by decide, by decide⟩

/-! ## Claim C9 -/

/-- Claim C9: Parser.defineSymbol makes the later binding win - after the
call, the table maps the name to the new address and kind - and it appends a
redefinition warning exactly when the name was already bound and the new
definition's kind is not DEFL (DEFL definitions redefine silently). -/
theorem C9_defineSymbol_redefinition (s : PState) (name : String) (addr : Int)
    (ty : String) :
    lookupSym (defineSymbol s name addr ty).symbolTable name = some ⟨addr, ty⟩ ∧
    (defineSymbol s name addr ty).warnings =
      s.warnings ++
        (if (lookupSym s.symbolTable name).isSome ∧ ty ≠ "DEFL" then
          [⟨"Symbol " ++ name ++ " redefined", s.currentLine, none⟩]
        else []) := by
  constructor
  · simp [defineSymbol, lookup_insertSym_self]
  · simp only [defineSymbol]
    split <;> simp

/-! ## Claim C7 -/

/-- Claim C7: in expression evaluation, the `/` operator performs integer
division truncating toward negative infinity (Math.floor of the quotient,
here Int.fdiv, so (-7)/2 = -4), and a zero divisor is a division-by-zero
error; shown for the canonical two-operand division expression, over any
symbol table, current address, operand values, and source positions. -/
theorem C7_division_floor_and_zero_error (tab : SymTable) (cur : Int)
    (a b : Int) (l1 c1 l2 c2 l3 c3 : Nat) :
    evaluate tab cur
      [⟨.number, "", a, l1, c1⟩, ⟨.operator, "/", 0, l2, c2⟩,
       ⟨.number, "", b, l3, c3⟩] =
      if b = 0 then .error ("Division by zero at line " ++ toString l2)
      else .ok (Int.fdiv a b) := by
  have hU0 : ∀ f : Nat, parseUnaryE
      [⟨.number, "", a, l1, c1⟩, ⟨.operator, "/", 0, l2, c2⟩,
       ⟨.number, "", b, l3, c3⟩] (f + 1) 0 = .ok (a, 1) := by
    intro f
    rw [parseUnaryE.eq_def]
    simp
  have hU2 : ∀ f : Nat, parseUnaryE
      [⟨.number, "", a, l1, c1⟩, ⟨.operator, "/", 0, l2, c2⟩,
       ⟨.number, "", b, l3, c3⟩] (f + 1) 2 = .ok (b, 3) := by
    intro f
    rw [parseUnaryE.eq_def]
    simp
  have hML3 : ∀ (f : Nat) (v : Int), parseMultLoop
      [⟨.number, "", a, l1, c1⟩, ⟨.operator, "/", 0, l2, c2⟩,
       ⟨.number, "", b, l3, c3⟩] (f + 1) v 3 = .ok (v, 3) := by
    intro f v
    rw [parseMultLoop.eq_def]
    simp
  have hAL3 : ∀ (f : Nat) (v : Int), parseAdditiveLoop
      [⟨.number, "", a, l1, c1⟩, ⟨.operator, "/", 0, l2, c2⟩,
       ⟨.number, "", b, l3, c3⟩] (f + 1) v 3 = .ok (v, 3) := by
    intro f v
    rw [parseAdditiveLoop.eq_def]
    simp
  have hML1 : ∀ (f : Nat) (v : Int), parseMultLoop
      [⟨.number, "", a, l1, c1⟩, ⟨.operator, "/", 0, l2, c2⟩,
       ⟨.number, "", b, l3, c3⟩] (f + 1 + 1) v 1 =
      (if b = 0 then .error ("Division by zero at line " ++ toString l2)
       else .ok (Int.fdiv v b, 3)) := by
    intro f v
    rw [parseMultLoop.eq_def]
    simp [hU2, hML3]
  have hM : ∀ f : Nat, parseMultiplicativeE
      [⟨.number, "", a, l1, c1⟩, ⟨.operator, "/", 0, l2, c2⟩,
       ⟨.number, "", b, l3, c3⟩] (f + 1 + 1 + 1) 0 =
      (if b = 0 then .error ("Division by zero at line " ++ toString l2)
       else .ok (Int.fdiv a b, 3)) := by
    intro f
    rw [parseMultiplicativeE.eq_def]
    simp [hU0, hML1]
  have hA : ∀ f : Nat, parseAdditiveE
      [⟨.number, "", a, l1, c1⟩, ⟨.operator, "/", 0, l2, c2⟩,
       ⟨.number, "", b, l3, c3⟩] (f + 1 + 1 + 1 + 1) 0 =
      (if b = 0 then .error ("Division by zero at line " ++ toString l2)
       else .ok (Int.fdiv a b, 3)) := by
    intro f
    rw [parseAdditiveE.eq_def]
    simp only [hM]
    split_ifs <;> simp [hAL3]
  have hE : ∀ f : Nat, parseExpressionE
      [⟨.number, "", a, l1, c1⟩, ⟨.operator, "/", 0, l2, c2⟩,
       ⟨.number, "", b, l3, c3⟩] (f + 1 + 1 + 1 + 1 + 1) 0 =
      (if b = 0 then .error ("Division by zero at line " ++ toString l2)
       else .ok (Int.fdiv a b, 3)) := by
    intro f
    rw [parseExpressionE.eq_def]
    exact hA f
  have hP : preprocess tab cur
      [⟨.number, "", a, l1, c1⟩, ⟨.operator, "/", 0, l2, c2⟩,
       ⟨.number, "", b, l3, c3⟩] = .ok
      [⟨.number, "", a, l1, c1⟩, ⟨.operator, "/", 0, l2, c2⟩,
       ⟨.number, "", b, l3, c3⟩] := by
    simp [preprocess, Except.map]
  have hlen : ¬([⟨.number, "", a, l1, c1⟩, ⟨.operator, "/", 0, l2, c2⟩,
      ⟨.number, "", b, l3, c3⟩] : List Token).length = 0 := by simp
  unfold evaluate
  rw [hP, if_neg hlen]
  dsimp only
  rw [if_neg hlen]
  rw [show (4 * ([⟨.number, "", a, l1, c1⟩, ⟨.operator, "/", 0, l2, c2⟩,
      ⟨.number, "", b, l3, c3⟩] : List Token).length + 16)
      = 23 + 1 + 1 + 1 + 1 + 1 from by simp]
  rw [hE 23]
  split_ifs <;> rfl

/-! ## Claim C8 -/

/-- Claim C8: encodeRST succeeds with the single byte `0xC7 | n` exactly when
the integer operand n is one of 0, 8, 0x10, 0x18, 0x20, 0x28, 0x30, 0x38,
and reports an invalid-RST-address error for every other integer. -/
theorem C8_encodeRST_exact_set (n : Int) :
    encodeRST (some (.num n)) =
      if n = 0 ∨ n = 8 ∨ n = 16 ∨ n = 24 ∨ n = 32 ∨ n = 40 ∨ n = 48 ∨ n = 56 then
        .ok ⟨[jsOr 0xC7 n], 1⟩
      else .error ("Invalid RST address: " ++ toString n) := by
  by_cases h : n = 0 ∨ n = 8 ∨ n = 16 ∨ n = 24 ∨ n = 32 ∨ n = 40 ∨ n = 48 ∨ n = 56
  · rw [if_pos h]
    rcases h with rfl | rfl | rfl | rfl | rfl | rfl | rfl | rfl <;> decide
  · rw [if_neg h]
    simp only [encodeRST]
    have hcond : ¬(jsAnd n 56 = n ∧ 0 ≤ n ∧ n ≤ 56) := by
      rintro ⟨h1, h2, h3⟩
      apply h
      interval_cases n <;> revert h1 <;> decide
    rw [if_neg hcond]

/-! ## Claim C5 -/

theorem jsAnd_rel (off : Int) (h1 : -128 ≤ off) (h2 : off ≤ 127) :
    jsAnd (if off < 0 then 256 + off else off) 255 = off % 256 := by
  split_ifs with h <;> rw [jsAnd255 _ (by omega) (by omega)] <;> try omega

theorem jsAnd_rel2 (t u : Int) (h1 : -128 ≤ t - u) (h2 : t - u ≤ 127) :
    jsAnd (if t < u then 256 + (t - u) else t - u) 255 = (t - u) % 256 := by
  have heq : (if t < u then 256 + (t - u) else t - u)
      = (if t - u < 0 then 256 + (t - u) else t - u) := by
    by_cases hc : t < u
    · rw [if_pos hc, if_pos (by omega)]
    · rw [if_neg hc, if_neg (by omega)]
  rw [heq]
  exact jsAnd_rel _ h1 h2

/-- Claim C5: for JR (unconditional and with conditions NZ/Z/NC/C) and DJNZ
at final address A with numeric resolved target, codegen stores the byte
(target - (A + 2)) mod 256 exactly when target - (A + 2) lies in -128..127,
and reports the relative-jump-out-of-range error exactly otherwise. -/
theorem C5_relative_jump_range (tab : SymTable) (A target : Int) :
    (encodeInstruction tab
        ⟨"INSTRUCTION", "JR", [.num target], A, [], none⟩ =
      if target - (A + 2) < -128 ∨ target - (A + 2) > 127 then
        .error ("Relative jump out of range: " ++ toString (target - (A + 2)) ++
          " (must be -128 to 127)")
      else .ok ⟨[0x18, (target - (A + 2)) % 256], 2⟩) ∧
    (encodeInstruction tab
        ⟨"INSTRUCTION", "JR", [.str "NZ", .num target], A, [], none⟩ =
      if target - (A + 2) < -128 ∨ target - (A + 2) > 127 then
        .error ("Relative jump out of range: " ++ toString (target - (A + 2)) ++
          " (must be -128 to 127)")
      else .ok ⟨[0x20, (target - (A + 2)) % 256], 2⟩) ∧
    (encodeInstruction tab
        ⟨"INSTRUCTION", "JR", [.str "Z", .num target], A, [], none⟩ =
      if target - (A + 2) < -128 ∨ target - (A + 2) > 127 then
        .error ("Relative jump out of range: " ++ toString (target - (A + 2)) ++
          " (must be -128 to 127)")
      else .ok ⟨[0x28, (target - (A + 2)) % 256], 2⟩) ∧
    (encodeInstruction tab
        ⟨"INSTRUCTION", "JR", [.str "NC", .num target], A, [], none⟩ =
      if target - (A + 2) < -128 ∨ target - (A + 2) > 127 then
        .error ("Relative jump out of range: " ++ toString (target - (A + 2)) ++
          " (must be -128 to 127)")
      else .ok ⟨[0x30, (target - (A + 2)) % 256], 2⟩) ∧
    (encodeInstruction tab
        ⟨"INSTRUCTION", "JR", [.str "C", .num target], A, [], none⟩ =
      if target - (A + 2) < -128 ∨ target - (A + 2) > 127 then
        .error ("Relative jump out of range: " ++ toString (target - (A + 2)) ++
          " (must be -128 to 127)")
      else .ok ⟨[0x38, (target - (A + 2)) % 256], 2⟩) ∧
    (encodeInstruction tab
        ⟨"INSTRUCTION", "DJNZ", [.num target], A, [], none⟩ =
      if target - (A + 2) < -128 ∨ target - (A + 2) > 127 then
        .error ("Relative jump out of range: " ++ toString (target - (A + 2)) ++
          " (must be -128 to 127)")
      else .ok ⟨[0x10, (target - (A + 2)) % 256], 2⟩) := by
  refine ⟨?_, ?_, ?_, ?_, ?_, ?_⟩ <;>
  · by_cases h : target - (A + 2) < -128 ∨ target - (A + 2) > 127
    · simp [encodeInstruction, SIMPLE_INSTRUCTIONS, resolveOperands,
        resolveOperand, encodeJR, encodeDJNZ, opAt, opIsNum, opNum, opEqStr,
        opIsJrCC, opStr, jrCCopcode, List.contains, List.elem, h]
    · simp [encodeInstruction, SIMPLE_INSTRUCTIONS, resolveOperands,
        resolveOperand, encodeJR, encodeDJNZ, opAt, opIsNum, opNum, opEqStr,
        opIsJrCC, opStr, jrCCopcode, List.contains, List.elem, h]
      all_goals exact jsAnd_rel2 _ _ (by omega) (by omega)

/-! ## Claim C6 -/

/-- Claim C6 (amended): with a parenthesized numeric address operand nn in
0..0xFFFF, `LD A,(nn)` does not emit the 0x3A extended form: the parser
returns the parenthesized expression as a plain number, and encodeLD's
`LD r,n` rule matches first, emitting [0x3E, nn & 0xFF] (2 bytes) for every
such nn. `LD (nn),A` emits [0x32, lo, hi] as the claim states. -/
theorem C6_ld_a_indirect_amended (tab : SymTable) (A nn : Int)
    (h0 : 0 ≤ nn) (h1 : nn ≤ 65535) :
    encodeInstruction tab
        ⟨"INSTRUCTION", "LD", [.str "A", .num nn], A, [], none⟩ =
      .ok ⟨[0x3E, nn % 256], 2⟩ ∧
    encodeInstruction tab
        ⟨"INSTRUCTION", "LD", [.num nn, .str "A"], A, [], none⟩ =
      .ok ⟨[0x32, nn % 256, nn / 256], 3⟩ := by
  have e1 : jsAnd nn 255 = nn % 256 := jsAnd255 _ h0 (by omega)
  have e2 : jsAnd (jsShr nn 8) 255 = nn / 256 := by
    rw [jsShr8 _ h0 (by omega)]
    rw [jsAnd255 _ (by omega) (by omega)]
    omega
  constructor <;>
  · simp [encodeInstruction, SIMPLE_INSTRUCTIONS, resolveOperands,
      resolveOperand, encodeLD, opAt, opReg8, opReg16, REG8, REG16, opIsNum,
      opNum, opEqStr, opIsLabelRef, List.contains, List.elem, e1, e2]

/-- Claim C6 (witness): the amended claim at nn = 0x4209 (16905), the RESULT
address of the running example: `LD (RESULT),A` encodes as 32 09 42 and
`LD A,(RESULT)` as 3E 09. -/
theorem C6_ld_a_indirect_amended_witness :
    encodeInstruction []
        ⟨"INSTRUCTION", "LD", [.num 16905, .str "A"], 16901, [], none⟩ =
      .ok ⟨[0x32, 0x09, 0x42], 3⟩ ∧
    encodeInstruction []
        ⟨"INSTRUCTION", "LD", [.str "A", .num 16905], 16901, [], none⟩ =
      .ok ⟨[0x3E, 0x09], 2⟩ := by
  have h := C6_ld_a_indirect_amended [] 16901 16905 (by norm_num) (by norm_num)
  exact ⟨h.2.trans (by decide), h.1.trans (by decide)⟩

/-! ## Claim C4 -/

/-- Claim C4: assembling the eight-statement add-2+2 program with a forward
data label succeeds and yields exactly the claimed bytes, with START bound
to 0x4200 and RESULT to 0x4209, and no other symbols. -/
theorem C4_add_program_exact_output :
    (assemble ".ORG $4200\nSTART: LD A,2\nLD B,2\nADD A,B\nLD (RESULT),A\nHALT\nRESULT: .DB 0\n.END\n").success = true ∧
    (assemble ".ORG $4200\nSTART: LD A,2\nLD B,2\nADD A,B\nLD (RESULT),A\nHALT\nRESULT: .DB 0\n.END\n").bytes =
      [0x3E, 0x02, 0x06, 0x02, 0x80, 0x32, 0x09, 0x42, 0x76, 0x00] ∧
    lookupSym (assemble ".ORG $4200\nSTART: LD A,2\nLD B,2\nADD A,B\nLD (RESULT),A\nHALT\nRESULT: .DB 0\n.END\n").symbolTable "START" =
      some ⟨0x4200, "LABEL"⟩ ∧
    lookupSym (assemble ".ORG $4200\nSTART: LD A,2\nLD B,2\nADD A,B\nLD (RESULT),A\nHALT\nRESULT: .DB 0\n.END\n").symbolTable "RESULT" =
      some ⟨0x4209, "LABEL"⟩ ∧
    (assemble ".ORG $4200\nSTART: LD A,2\nLD B,2\nADD A,B\nLD (RESULT),A\nHALT\nRESULT: .DB 0\n.END\n").symbolTable.map Prod.fst =
      ["START", "RESULT"] := by
  refine ⟨by decide, by decide, by decide, by decide, by decide⟩

/-! ## Counterexamples for claims C2, C3, C6 -/

/-- Claim C2 (counterexample): in `.ORG $4200 / NOP / .ORG $5000 / NOP /
.END`, the final record after the intervening `.ORG $5000` sits at
0x4201 = A + |B|, not at the `.ORG` target 0x5000: the code generator
recomputes all addresses sequentially and never sees `.ORG`. -/
theorem C2_counterexample :
    (assemble ".ORG $4200\nNOP\n.ORG $5000\nNOP\n.END\n").success = true ∧
    (assemble ".ORG $4200\nNOP\n.ORG $5000\nNOP\n.END\n").instructions.map
      IRecord.address = [0x4200, 0x4201] ∧
    (assemble ".ORG $4200\nNOP\n.ORG $5000\nNOP\n.END\n").instructions.map
      IRecord.bytes = [[0], [0]] ∧
    ((0x4201 : Int) ≠ 0x5000) := by
  refine ⟨by decide, by decide, by decide, by decide⟩

/-- Claim C3 (counterexample): in `.ORG $5000 / FOO: LD A,1 / HALT / .END`,
assembly succeeds and FOO keeps its pass-1 address 0x5000, while the record
it labels is finalized by the code generator at address 0x4200 (the record
carries no label field, so codegen never re-binds FOO). -/
theorem C3_counterexample :
    (assemble ".ORG $5000\nFOO: LD A,1\nHALT\n.END\n").success = true ∧
    lookupSym (assemble ".ORG $5000\nFOO: LD A,1\nHALT\n.END\n").symbolTable
      "FOO" = some ⟨0x5000, "LABEL"⟩ ∧
    (assemble ".ORG $5000\nFOO: LD A,1\nHALT\n.END\n").instructions.map
      IRecord.address = [0x4200, 0x4202] ∧
    (assemble ".ORG $5000\nFOO: LD A,1\nHALT\n.END\n").instructions.map
      IRecord.label = [none, none] ∧
    ((0x5000 : Int) ≠ 0x4200) := by
  refine ⟨by decide, by decide, by decide, by decide, by decide⟩

/-- Claim C6 (counterexample): `LD A,($4000)` assembles successfully to
[0x3E, 0x00] (plus HALT), not to the claimed extended form
[0x3A, 0x00, 0x40]: the parenthesized address is reduced to a plain number
by the parser and encodeLD's `LD r,n` rule matches first. -/
theorem C6_counterexample :
    (assemble "LD A,($4000)\nHALT\n.END\n").success = true ∧
    (assemble "LD A,($4000)\nHALT\n.END\n").bytes = [0x3E, 0x00, 0x76] ∧
    ([0x3E, 0x00, 0x76] : List Nat) ≠ [0x3A, 0x00, 0x40, 0x76] := by
  refine ⟨by decide, by decide, by decide⟩

/-! ## Table-growth and operand-shape lemmas -/

theorem tabLe_refl (t : SymTable) : tabLe t t := fun _ h => h

theorem tabLe_trans {t1 t2 t3 : SymTable} (h1 : tabLe t1 t2) (h2 : tabLe t2 t3) :
    tabLe t1 t3 := fun n h => h2 n (h1 n h)

theorem tabLe_insertSym (tab : SymTable) (n : String) (v : Sym) :
    tabLe tab (insertSym tab n v) := by
  intro m hm
  by_cases h : m = n
  · subst h
    rw [lookup_insertSym_self]
    rfl
  · rw [lookup_insertSym_other tab n m v h]
    exact hm

theorem tabLe_lookup {t1 t2 : SymTable} (h : tabLe t1 t2) {n : String}
    {s : Sym} (hs : lookupSym t1 n = some s) :
    ∃ s2, lookupSym t2 n = some s2 := by
  have := h n (by rw [hs]; rfl)
  cases hl : lookupSym t2 n with
  | none => rw [hl] at this; exact absurd this (by simp)
  | some s2 => exact ⟨s2, rfl⟩

theorem resolveOperand_congr {t1 t2 : SymTable} (h : tabLe t1 t2)
    {op : Operand} {o1 : Operand} (hr : resolveOperand t1 op = .ok o1) :
    ∃ o2, resolveOperand t2 op = .ok o2 ∧ shEq o1 o2 = true := by
  cases op with
  | labelRef name =>
    rw [resolveOperand] at hr
    cases hl : lookupSym t1 name with
    | none => rw [hl] at hr; exact absurd hr (by simp)
    | some s =>
      rw [hl] at hr
      obtain ⟨s2, hl2⟩ := tabLe_lookup h hl
      refine ⟨.num s2.address, ?_, ?_⟩
      · rw [resolveOperand, hl2]
      · cases hr; rfl
  | num n =>
    rw [resolveOperand] at hr
    cases hr
    exact ⟨.num n, rfl, rfl⟩
  | str s =>
    rw [resolveOperand] at hr
    rw [resolveOperand]
    split_ifs at hr ⊢ with hA hB hC
    · cases hr; exact ⟨.str s, rfl, by simp [shEq]⟩
    · cases hr; exact ⟨.str s, rfl, by simp [shEq]⟩
    · cases hr; exact ⟨.str s, rfl, by simp [shEq]⟩
    · cases hl : lookupSym t1 s with
      | none => rw [hl] at hr; exact absurd hr (by simp)
      | some sym =>
        rw [hl] at hr
        obtain ⟨s2, hl2⟩ := tabLe_lookup h hl
        rw [hl2]
        cases hr
        exact ⟨.num s2.address, rfl, rfl⟩

theorem resolveOperands_congr {t1 t2 : SymTable} (h : tabLe t1 t2) :
    ∀ {ops r1 : List Operand}, resolveOperands t1 ops = .ok r1 →
    ∃ r2, resolveOperands t2 ops = .ok r2 ∧ r2.length = r1.length ∧
      ∀ i, optShEq (opAt r1 i) (opAt r2 i) = true
  | [], r1, hr => by
    rw [resolveOperands] at hr
    cases hr
    exact ⟨[], rfl, rfl, fun i => by cases i <;> rfl⟩
  | op :: rest, r1, hr => by
    rw [resolveOperands] at hr
    cases ho : resolveOperand t1 op with
    | error e => rw [ho] at hr; exact absurd hr (by simp)
    | ok o1 =>
      rw [ho] at hr
      cases hrest : resolveOperands t1 rest with
      | error e => rw [hrest] at hr; exact absurd hr (by simp)
      | ok os1 =>
        rw [hrest] at hr
        cases hr
        obtain ⟨o2, ho2, hsh⟩ := resolveOperand_congr h ho
        obtain ⟨os2, hos2, hlen, hall⟩ := resolveOperands_congr h hrest
        refine ⟨o2 :: os2, ?_, by simp [hlen], ?_⟩
        · rw [resolveOperands, ho2, hos2]
        · intro i
          cases i with
          | zero => exact hsh
          | succ j => exact hall j

theorem optShEq_reg8 {o1 o2 : Option Operand} (h : optShEq o1 o2 = true) :
    opReg8 o1 = opReg8 o2 := by
  cases o1 <;> cases o2 <;> simp [optShEq] at h ⊢
  case some.some a b =>
    cases a <;> cases b <;> simp [shEq] at h <;> simp [opReg8]
    case str.str x y => rw [show x = y from by simpa using h]

theorem optShEq_reg16 {o1 o2 : Option Operand} (h : optShEq o1 o2 = true) :
    opReg16 o1 = opReg16 o2 := by
  cases o1 <;> cases o2 <;> simp [optShEq] at h ⊢
  case some.some a b =>
    cases a <;> cases b <;> simp [shEq] at h <;> simp [opReg16]
    case str.str x y => rw [show x = y from by simpa using h]

theorem optShEq_isNum {o1 o2 : Option Operand} (h : optShEq o1 o2 = true) :
    opIsNum o1 = opIsNum o2 := by
  cases o1 <;> cases o2 <;> simp [optShEq] at h ⊢
  case some.some a b =>
    cases a <;> cases b <;> simp [shEq] at h <;> simp [opIsNum]

theorem optShEq_eqStr {o1 o2 : Option Operand} (h : optShEq o1 o2 = true)
    (s : String) : opEqStr o1 s = opEqStr o2 s := by
  cases o1 <;> cases o2 <;> simp [optShEq] at h ⊢
  case some.some a b =>
    cases a <;> cases b <;> simp [shEq] at h <;> simp [opEqStr]
    case str.str x y => rw [show x = y from by simpa using h]

theorem optShEq_isLabelRef {o1 o2 : Option Operand} (h : optShEq o1 o2 = true) :
    opIsLabelRef o1 = opIsLabelRef o2 := by
  cases o1 <;> cases o2 <;> simp [optShEq] at h ⊢
  case some.some a b =>
    cases a <;> cases b <;> simp [shEq] at h <;> simp [opIsLabelRef]

theorem optShEq_isCond {o1 o2 : Option Operand} (h : optShEq o1 o2 = true) :
    opIsCond o1 = opIsCond o2 := by
  cases o1 <;> cases o2 <;> simp [optShEq] at h ⊢
  case some.some a b =>
    cases a <;> cases b <;> simp [shEq] at h <;> simp [opIsCond]
    case str.str x y => rw [show x = y from by simpa using h]

theorem optShEq_str {o1 o2 : Option Operand} (h : optShEq o1 o2 = true) :
    opStr o1 = opStr o2 := by
  cases o1 <;> cases o2 <;> simp [optShEq] at h ⊢
  case some.some a b =>
    cases a <;> cases b <;> simp [shEq] at h <;> simp [opStr]
    case str.str x y => simpa using h

/-! ## Encoder length lemmas -/

theorem encodeJR_ok_len {ops : List Operand} {e : Encoding}
    (h : encodeJR ops = .ok e) : e.bytes.length = 2 := by
  rw [encodeJR] at h
  split_ifs at h <;> cases h <;> rfl

theorem encodeDJNZ_ok_len {o : Option Operand} {e : Encoding}
    (h : encodeDJNZ o = .ok e) : e.bytes.length = 2 := by
  rcases o with _ | ⟨s | n | l⟩ <;> simp only [encodeDJNZ] at h <;> first
  | (cases h; rfl)
  | exact absurd h (by simp)

theorem encodeADDHL_ok_len {ops : List Operand} {e : Encoding}
    (h : encodeADDHL ops = .ok e) : e.bytes.length = 1 := by
  rw [encodeADDHL] at h
  split_ifs at h <;> cases h <;> rfl

theorem encodeINC_ok_len {o : Option Operand} {e : Encoding}
    (h : encodeINC o = .ok e) : e.bytes.length = 1 := by
  rw [encodeINC] at h
  split_ifs at h <;> cases h <;> rfl

theorem encodeDEC_ok_len {o : Option Operand} {e : Encoding}
    (h : encodeDEC o = .ok e) : e.bytes.length = 1 := by
  rw [encodeDEC] at h
  split_ifs at h <;> cases h <;> rfl

theorem encodePUSH_ok_len {o : Option Operand} {e : Encoding}
    (h : encodePUSH o = .ok e) : e.bytes.length = 1 := by
  rw [encodePUSH] at h
  split_ifs at h <;> cases h <;> rfl

theorem encodePOP_ok_len {o : Option Operand} {e : Encoding}
    (h : encodePOP o = .ok e) : e.bytes.length = 1 := by
  rw [encodePOP] at h
  split_ifs at h <;> cases h <;> rfl

theorem encodeCALL_ok_len {ops : List Operand} {e : Encoding}
    (h : encodeCALL ops = .ok e) : e.bytes.length = 3 := by
  rw [encodeCALL] at h
  split_ifs at h <;> cases h <;> rfl

theorem encodeRETCC_ok_len {o : Option Operand} {e : Encoding}
    (h : encodeRETCC o = .ok e) : e.bytes.length = 1 := by
  rcases o with _ | ⟨s | n | l⟩ <;> simp only [encodeRETCC] at h <;> first
  | (split_ifs at h <;> first
     | (cases h; rfl)
     | exact absurd h (by simp))
  | exact absurd h (by simp)

theorem encodeRST_ok_len {o : Option Operand} {e : Encoding}
    (h : encodeRST o = .ok e) : e.bytes.length = 1 := by
  rcases o with _ | ⟨s | n | l⟩ <;> simp only [encodeRST] at h <;> first
  | (split_ifs at h <;> first
     | (cases h; rfl)
     | exact absurd h (by simp))
  | exact absurd h (by simp)

theorem encodeCB_ok_len {m : String} {ops : List Operand} {e : Encoding}
    (h : encodeCB m ops = .ok e) : e.bytes.length = 2 := by
  simp only [encodeCB] at h
  split_ifs at h <;> first
  | (cases h; rfl)
  | exact absurd h (by simp)

theorem encodeIN_ok_len {ops : List Operand} {e : Encoding}
    (h : encodeIN ops = .ok e) : e.bytes.length = 2 := by
  rw [encodeIN] at h
  split_ifs at h <;> first
  | (cases h; rfl)
  | exact absurd h (by simp)

theorem encodeOUT_ok_len {ops : List Operand} {e : Encoding}
    (h : encodeOUT ops = .ok e) : e.bytes.length = 2 := by
  rw [encodeOUT] at h
  split_ifs at h <;> first
  | (cases h; rfl)
  | exact absurd h (by simp)

theorem encodeJP_congr_len {r1 r2 : List Operand} (hlen : r2.length = r1.length)
    (hsh : ∀ i, optShEq (opAt r1 i) (opAt r2 i) = true) {e1 e2 : Encoding}
    (h1 : encodeJP r1 = .ok e1) (h2 : encodeJP r2 = .ok e2) :
    e2.bytes.length = e1.bytes.length := by
  simp only [encodeJP] at h1 h2
  rw [hlen, ← optShEq_eqStr (hsh 0) "(HL)", ← optShEq_isNum (hsh 0),
    ← optShEq_isCond (hsh 0), ← optShEq_isNum (hsh 1)] at h2
  split_ifs at h1 h2 <;> cases h1 <;> cases h2 <;> simp

theorem encodeALUcore_congr_len {m : String} {r1 r2 : List Operand}
    (h0 : optShEq (opAt r1 0) (opAt r2 0) = true) {e1 e2 : Encoding}
    (h1 : encodeALUcore m r1 = .ok e1) (h2 : encodeALUcore m r2 = .ok e2) :
    e2.bytes.length = e1.bytes.length := by
  simp only [encodeALUcore] at h1 h2
  rw [← optShEq_reg8 h0, ← optShEq_eqStr h0 "(HL)", ← optShEq_isNum h0] at h2
  split_ifs at h1 h2 <;> first
  | (cases h1; cases h2; simp)
  | exact absurd h1 (by simp)
  | exact absurd h2 (by simp)

theorem encodeALU_congr_len {m : String} {r1 r2 : List Operand}
    (hlen : r2.length = r1.length)
    (hsh : ∀ i, optShEq (opAt r1 i) (opAt r2 i) = true) {e1 e2 : Encoding}
    (h1 : encodeALU m r1 = .ok e1) (h2 : encodeALU m r2 = .ok e2) :
    e2.bytes.length = e1.bytes.length := by
  simp only [encodeALU] at h1 h2
  rw [hlen, ← optShEq_eqStr (hsh 0) "A"] at h2
  split_ifs at h1 h2
  · exact encodeALUcore_congr_len (hsh 0) h1 h2
  · have h15 := hsh 1
    cases ho1 : opAt r1 1 with
    | none =>
      rw [ho1] at h1
      exact absurd h1 (by simp)
    | some op2 =>
      rw [ho1] at h1 h15
      cases ho2 : opAt r2 1 with
      | none => rw [ho2] at h15; exact absurd h15 (by simp [optShEq])
      | some op2b =>
        rw [ho2] at h2 h15
        exact @encodeALUcore_congr_len m [op2] [op2b] h15 _ _ h1 h2

theorem opEqStr_some {o : Option Operand} {s : String} (h : opEqStr o s = true) :
    o = some (.str s) := by
  simpa [opEqStr] using h

theorem opEqStr_A_reg8 {o : Option Operand} (h : opEqStr o "A" = true) :
    (opReg8 o).isSome = true := by
  rw [opEqStr_some h]
  decide

theorem opIsNum_reg8_none {o : Option Operand} (h : opIsNum o = true) :
    opReg8 o = none := by
  rcases o with _ | ⟨s | n | l⟩ <;> simp [opIsNum] at h ⊢
  rfl

theorem encodeLD_congr_len {r1 r2 : List Operand}
    (hsh : ∀ i, optShEq (opAt r1 i) (opAt r2 i) = true) {e1 e2 : Encoding}
    (h1 : encodeLD r1 = .ok e1) (h2 : encodeLD r2 = .ok e2) :
    e2.bytes.length = e1.bytes.length := by
  simp only [encodeLD] at h1 h2
  rw [← optShEq_reg8 (hsh 0), ← optShEq_reg8 (hsh 1), ← optShEq_isNum (hsh 0),
    ← optShEq_isNum (hsh 1), ← optShEq_eqStr (hsh 0) "(HL)",
    ← optShEq_eqStr (hsh 1) "(HL)", ← optShEq_eqStr (hsh 0) "A",
    ← optShEq_eqStr (hsh 1) "A", ← optShEq_eqStr (hsh 0) "(BC)",
    ← optShEq_eqStr (hsh 1) "(BC)", ← optShEq_eqStr (hsh 0) "(DE)",
    ← optShEq_eqStr (hsh 1) "(DE)", ← optShEq_reg16 (hsh 0),
    ← optShEq_eqStr (hsh 0) "SP", ← optShEq_eqStr (hsh 1) "HL",
    ← optShEq_isLabelRef (hsh 0), ← optShEq_eqStr (hsh 0) "HL",
    ← optShEq_isLabelRef (hsh 1)] at h2
  by_cases hA : opEqStr (opAt r1 0) "A" = true ∧ opIsNum (opAt r1 1) = true
  · have hc1 : ¬((opReg8 (opAt r1 0)).isSome = true ∧
        (opReg8 (opAt r1 1)).isSome = true) := by
      rintro ⟨-, hb⟩
      rw [opIsNum_reg8_none hA.2] at hb
      exact absurd hb (by simp)
    have hc2 : (opReg8 (opAt r1 0)).isSome = true ∧ opIsNum (opAt r1 1) = true :=
      ⟨opEqStr_A_reg8 hA.1, hA.2⟩
    rw [if_neg hc1, if_pos hc2] at h1 h2
    cases h1
    cases h2
    dsimp only [List.length_cons, List.length_nil]
  · have hn8 : ¬(opEqStr (opAt r1 0) "A" = true ∧ opIsNum (opAt r1 1) = true ∧
        opNum (opAt r1 1) > 255) := fun hx => hA ⟨hx.1, hx.2.1⟩
    have hn9 : ¬(opEqStr (opAt r1 0) "A" = true ∧ opIsNum (opAt r1 1) = true ∧
        opNum (opAt r1 1) ≤ 255) := fun hx => hA ⟨hx.1, hx.2.1⟩
    have hn8b : ¬(opEqStr (opAt r1 0) "A" = true ∧ opIsNum (opAt r1 1) = true ∧
        opNum (opAt r2 1) > 255) := fun hx => hA ⟨hx.1, hx.2.1⟩
    have hn9b : ¬(opEqStr (opAt r1 0) "A" = true ∧ opIsNum (opAt r1 1) = true ∧
        opNum (opAt r2 1) ≤ 255) := fun hx => hA ⟨hx.1, hx.2.1⟩
    rw [if_neg hn8, if_neg hn9] at h1
    rw [if_neg hn8b, if_neg hn9b] at h2
    by_cases g1 : (opReg8 (opAt r1 0)).isSome = true ∧ (opReg8 (opAt r1 1)).isSome = true
    · rw [if_pos g1] at h1 h2
      cases h1
      cases h2
      dsimp only [List.length_cons, List.length_nil]
    · rw [if_neg g1] at h1 h2
      by_cases g2 : (opReg8 (opAt r1 0)).isSome = true ∧ opIsNum (opAt r1 1) = true
      · rw [if_pos g2] at h1 h2
        cases h1
        cases h2
        dsimp only [List.length_cons, List.length_nil]
      · rw [if_neg g2] at h1 h2
        by_cases g3 : (opReg8 (opAt r1 0)).isSome = true ∧ opEqStr (opAt r1 1) "(HL)" = true
        · rw [if_pos g3] at h1 h2
          cases h1
          cases h2
          dsimp only [List.length_cons, List.length_nil]
        · rw [if_neg g3] at h1 h2
          by_cases g4 : opEqStr (opAt r1 0) "(HL)" = true ∧ (opReg8 (opAt r1 1)).isSome = true
          · rw [if_pos g4] at h1 h2
            cases h1
            cases h2
            dsimp only [List.length_cons, List.length_nil]
          · rw [if_neg g4] at h1 h2
            by_cases g5 : opEqStr (opAt r1 0) "(HL)" = true ∧ opIsNum (opAt r1 1) = true
            · rw [if_pos g5] at h1 h2
              cases h1
              cases h2
              dsimp only [List.length_cons, List.length_nil]
            · rw [if_neg g5] at h1 h2
              by_cases g6 : opEqStr (opAt r1 0) "A" = true ∧ opEqStr (opAt r1 1) "(BC)" = true
              · rw [if_pos g6] at h1 h2
                cases h1
                cases h2
                dsimp only [List.length_cons, List.length_nil]
              · rw [if_neg g6] at h1 h2
                by_cases g7 : opEqStr (opAt r1 0) "A" = true ∧ opEqStr (opAt r1 1) "(DE)" = true
                · rw [if_pos g7] at h1 h2
                  cases h1
                  cases h2
                  dsimp only [List.length_cons, List.length_nil]
                · rw [if_neg g7] at h1 h2
                  by_cases g8 : opEqStr (opAt r1 0) "(BC)" = true ∧ opEqStr (opAt r1 1) "A" = true
                  · rw [if_pos g8] at h1 h2
                    cases h1
                    cases h2
                    dsimp only [List.length_cons, List.length_nil]
                  · rw [if_neg g8] at h1 h2
                    by_cases g9 : opEqStr (opAt r1 0) "(DE)" = true ∧ opEqStr (opAt r1 1) "A" = true
                    · rw [if_pos g9] at h1 h2
                      cases h1
                      cases h2
                      dsimp only [List.length_cons, List.length_nil]
                    · rw [if_neg g9] at h1 h2
                      by_cases g10 : opIsNum (opAt r1 0) = true ∧ opEqStr (opAt r1 1) "A" = true
                      · rw [if_pos g10] at h1 h2
                        cases h1
                        cases h2
                        dsimp only [List.length_cons, List.length_nil]
                      · rw [if_neg g10] at h1 h2
                        by_cases g11 : (opReg16 (opAt r1 0)).isSome = true ∧ opIsNum (opAt r1 1) = true
                        · rw [if_pos g11] at h1 h2
                          cases h1
                          cases h2
                          dsimp only [List.length_cons, List.length_nil]
                        · rw [if_neg g11] at h1 h2
                          by_cases g12 : opEqStr (opAt r1 0) "SP" = true ∧ opEqStr (opAt r1 1) "HL" = true
                          · rw [if_pos g12] at h1 h2
                            cases h1
                            cases h2
                            dsimp only [List.length_cons, List.length_nil]
                          · rw [if_neg g12] at h1 h2
                            by_cases g13 : (opIsNum (opAt r1 0) || opIsLabelRef (opAt r1 0)) = true ∧ opEqStr (opAt r1 1) "HL" = true
                            · rw [if_pos g13] at h1 h2
                              cases h1
                              cases h2
                              dsimp only [List.length_cons, List.length_nil]
                            · rw [if_neg g13] at h1 h2
                              by_cases g14 : opEqStr (opAt r1 0) "HL" = true ∧ (opIsNum (opAt r1 1) || opIsLabelRef (opAt r1 1)) = true
                              · rw [if_pos g14] at h1 h2
                                cases h1
                                cases h2
                                dsimp only [List.length_cons, List.length_nil]
                              · rw [if_neg g14] at h1 h2
                                exact absurd h1 (by simp)

theorem encodeInstruction_bytes_irrel (tab : SymTable) (r : IRecord) (b : List Int) :
    encodeInstruction tab { r with bytes := b } = encodeInstruction tab r := by
  cases r
  rfl

theorem encodeInstruction_congr_len {t1 t2 : SymTable} (ht : tabLe t1 t2)
    {inst : IRecord} {e1 e2 : Encoding}
    (h1 : encodeInstruction t1 inst = .ok e1)
    (h2 : encodeInstruction t2 inst = .ok e2) :
    e2.bytes.length = e1.bytes.length := by
  rw [encodeInstruction] at h1 h2
  cases hS : SIMPLE_INSTRUCTIONS inst.mnemonic with
  | some v =>
    rw [hS] at h1 h2
    rcases v with ⟨p, op, sz⟩
    cases p <;> (cases h1; cases h2; rfl)
  | none =>
    rw [hS] at h1 h2
    by_cases d1 : inst.mnemonic = "LD"
    · rw [if_pos d1] at h1 h2
      rcases hr1 : resolveOperands t1 inst.operands with m1 | r1 <;> rw [hr1] at h1
      · exact absurd h1 (by simp)
      obtain ⟨r2, hr2, hlen, hall⟩ := resolveOperands_congr ht hr1
      rw [hr2] at h2
      exact encodeLD_congr_len hall h1 h2
    · rw [if_neg d1] at h1 h2
      by_cases d2 : inst.mnemonic = "JP"
      · rw [if_pos d2] at h1 h2
        rcases hr1 : resolveOperands t1 inst.operands with m1 | r1 <;> rw [hr1] at h1
        · exact absurd h1 (by simp)
        obtain ⟨r2, hr2, hlen, hall⟩ := resolveOperands_congr ht hr1
        rw [hr2] at h2
        exact encodeJP_congr_len hlen hall h1 h2
      · rw [if_neg d2] at h1 h2
        by_cases d3 : inst.mnemonic = "JR"
        · rw [if_pos d3] at h1 h2
          have hJ1 : e1.bytes.length = 2 := by
            rcases hr1 : resolveOperands t1 inst.operands with m1 | r1 <;> rw [hr1] at h1
            · exact absurd h1 (by simp)
            dsimp only at h1
            split_ifs at h1 <;> first
            | exact absurd h1 (by simp)
            | exact encodeJR_ok_len h1
            | (rcases ho : opAt r1 0 with - | cc <;> rw [ho] at h1 <;>
                exact encodeJR_ok_len h1)
          have hJ2 : e2.bytes.length = 2 := by
            rcases hr2 : resolveOperands t2 inst.operands with m2 | r2 <;> rw [hr2] at h2
            · exact absurd h2 (by simp)
            dsimp only at h2
            split_ifs at h2 <;> first
            | exact absurd h2 (by simp)
            | exact encodeJR_ok_len h2
            | (rcases ho : opAt r2 0 with - | cc <;> rw [ho] at h2 <;>
                exact encodeJR_ok_len h2)
          rw [hJ1, hJ2]
        · rw [if_neg d3] at h1 h2
          by_cases d4 : inst.mnemonic = "DJNZ"
          · rw [if_pos d4] at h1 h2
            have hJ1 : e1.bytes.length = 2 := by
              rcases hr1 : resolveOperands t1 inst.operands with m1 | r1 <;> rw [hr1] at h1
              · exact absurd h1 (by simp)
              dsimp only at h1
              split_ifs at h1 <;> first
              | exact absurd h1 (by simp)
              | exact encodeDJNZ_ok_len h1
            have hJ2 : e2.bytes.length = 2 := by
              rcases hr2 : resolveOperands t2 inst.operands with m2 | r2 <;> rw [hr2] at h2
              · exact absurd h2 (by simp)
              dsimp only at h2
              split_ifs at h2 <;> first
              | exact absurd h2 (by simp)
              | exact encodeDJNZ_ok_len h2
            rw [hJ1, hJ2]
          · rw [if_neg d4] at h1 h2
            by_cases d5 : inst.mnemonic = "ADD" ∧ inst.operands.length = 2 ∧ opEqStr (opAt inst.operands 0) "HL" = true
            · rw [if_pos d5] at h1 h2
              rcases hr1 : resolveOperands t1 inst.operands with m1 | r1 <;> rw [hr1] at h1
              · exact absurd h1 (by simp)
              rcases hr2 : resolveOperands t2 inst.operands with m2 | r2 <;> rw [hr2] at h2
              · exact absurd h2 (by simp)
              rw [encodeADDHL_ok_len h2, encodeADDHL_ok_len h1]
            · rw [if_neg d5] at h1 h2
              by_cases d6 : ["ADD", "ADC", "SUB", "SBC", "AND", "OR", "XOR", "CP"].contains inst.mnemonic = true
              · rw [if_pos d6] at h1 h2
                rcases hr1 : resolveOperands t1 inst.operands with m1 | r1 <;> rw [hr1] at h1
                · exact absurd h1 (by simp)
                obtain ⟨r2, hr2, hlen, hall⟩ := resolveOperands_congr ht hr1
                rw [hr2] at h2
                exact encodeALU_congr_len hlen hall h1 h2
              · rw [if_neg d6] at h1 h2
                by_cases d7 : inst.mnemonic = "INC"
                · rw [if_pos d7] at h1 h2
                  rcases hr1 : resolveOperands t1 inst.operands with m1 | r1 <;> rw [hr1] at h1
                  · exact absurd h1 (by simp)
                  rcases hr2 : resolveOperands t2 inst.operands with m2 | r2 <;> rw [hr2] at h2
                  · exact absurd h2 (by simp)
                  rw [encodeINC_ok_len h2, encodeINC_ok_len h1]
                · rw [if_neg d7] at h1 h2
                  by_cases d8 : inst.mnemonic = "DEC"
                  · rw [if_pos d8] at h1 h2
                    rcases hr1 : resolveOperands t1 inst.operands with m1 | r1 <;> rw [hr1] at h1
                    · exact absurd h1 (by simp)
                    rcases hr2 : resolveOperands t2 inst.operands with m2 | r2 <;> rw [hr2] at h2
                    · exact absurd h2 (by simp)
                    rw [encodeDEC_ok_len h2, encodeDEC_ok_len h1]
                  · rw [if_neg d8] at h1 h2
                    by_cases d9 : inst.mnemonic = "PUSH"
                    · rw [if_pos d9] at h1 h2
                      rcases hr1 : resolveOperands t1 inst.operands with m1 | r1 <;> rw [hr1] at h1
                      · exact absurd h1 (by simp)
                      rcases hr2 : resolveOperands t2 inst.operands with m2 | r2 <;> rw [hr2] at h2
                      · exact absurd h2 (by simp)
                      rw [encodePUSH_ok_len h2, encodePUSH_ok_len h1]
                    · rw [if_neg d9] at h1 h2
                      by_cases d10 : inst.mnemonic = "POP"
                      · rw [if_pos d10] at h1 h2
                        rcases hr1 : resolveOperands t1 inst.operands with m1 | r1 <;> rw [hr1] at h1
                        · exact absurd h1 (by simp)
                        rcases hr2 : resolveOperands t2 inst.operands with m2 | r2 <;> rw [hr2] at h2
                        · exact absurd h2 (by simp)
                        rw [encodePOP_ok_len h2, encodePOP_ok_len h1]
                      · rw [if_neg d10] at h1 h2
                        by_cases d11 : inst.mnemonic = "CALL"
                        · rw [if_pos d11] at h1 h2
                          rcases hr1 : resolveOperands t1 inst.operands with m1 | r1 <;> rw [hr1] at h1
                          · exact absurd h1 (by simp)
                          rcases hr2 : resolveOperands t2 inst.operands with m2 | r2 <;> rw [hr2] at h2
                          · exact absurd h2 (by simp)
                          rw [encodeCALL_ok_len h2, encodeCALL_ok_len h1]
                        · rw [if_neg d11] at h1 h2
                          by_cases d12 : inst.mnemonic = "RET"
                          · rw [if_pos d12] at h1 h2
                            by_cases g0 : inst.operands.length = 0
                            · rw [if_pos g0] at h1 h2
                              cases h1
                              cases h2
                              rfl
                            · rw [if_neg g0] at h1 h2
                              rcases hr1 : resolveOperands t1 inst.operands with m1 | r1 <;> rw [hr1] at h1
                              · exact absurd h1 (by simp)
                              rcases hr2 : resolveOperands t2 inst.operands with m2 | r2 <;> rw [hr2] at h2
                              · exact absurd h2 (by simp)
                              rw [encodeRETCC_ok_len h2, encodeRETCC_ok_len h1]
                          · rw [if_neg d12] at h1 h2
                            by_cases d13 : inst.mnemonic = "RST"
                            · rw [if_pos d13] at h1 h2
                              rcases hr1 : resolveOperands t1 inst.operands with m1 | r1 <;> rw [hr1] at h1
                              · exact absurd h1 (by simp)
                              rcases hr2 : resolveOperands t2 inst.operands with m2 | r2 <;> rw [hr2] at h2
                              · exact absurd h2 (by simp)
                              rw [encodeRST_ok_len h2, encodeRST_ok_len h1]
                            · rw [if_neg d13] at h1 h2
                              by_cases d14 : ["RLC", "RRC", "RL", "RR", "SLA", "SRA", "SLL", "SRL", "BIT", "SET", "RES"].contains inst.mnemonic = true
                              · rw [if_pos d14] at h1 h2
                                rcases hr1 : resolveOperands t1 inst.operands with m1 | r1 <;> rw [hr1] at h1
                                · exact absurd h1 (by simp)
                                rcases hr2 : resolveOperands t2 inst.operands with m2 | r2 <;> rw [hr2] at h2
                                · exact absurd h2 (by simp)
                                rw [encodeCB_ok_len h2, encodeCB_ok_len h1]
                              · rw [if_neg d14] at h1 h2
                                by_cases d15 : inst.mnemonic = "IN"
                                · rw [if_pos d15] at h1 h2
                                  rcases hr1 : resolveOperands t1 inst.operands with m1 | r1 <;> rw [hr1] at h1
                                  · exact absurd h1 (by simp)
                                  rcases hr2 : resolveOperands t2 inst.operands with m2 | r2 <;> rw [hr2] at h2
                                  · exact absurd h2 (by simp)
                                  rw [encodeIN_ok_len h2, encodeIN_ok_len h1]
                                · rw [if_neg d15] at h1 h2
                                  by_cases d16 : inst.mnemonic = "OUT"
                                  · rw [if_pos d16] at h1 h2
                                    rcases hr1 : resolveOperands t1 inst.operands with m1 | r1 <;> rw [hr1] at h1
                                    · exact absurd h1 (by simp)
                                    rcases hr2 : resolveOperands t2 inst.operands with m2 | r2 <;> rw [hr2] at h2
                                    · exact absurd h2 (by simp)
                                    rw [encodeOUT_ok_len h2, encodeOUT_ok_len h1]
                                  · rw [if_neg d16] at h1 h2
                                    exact absurd h1 (by simp)


theorem encodeInstruction_only_fields (tab : SymTable) (rt mn : String)
    (ops : List Operand) (ad : Int) (b1 b2 : List Int) (lb1 lb2 : Option String) :
    encodeInstruction tab ⟨rt, mn, ops, ad, b1, lb1⟩ =
      encodeInstruction tab ⟨rt, mn, ops, ad, b2, lb2⟩ := rfl

theorem genPass1_sound {insts : List IRecord} :
    ∀ {tab : SymTable} {cur : Int} {t : SymTable} {c : Int} {out : List IRecord},
    genPass1 tab cur insts = .ok (t, c, out) →
    chainFrom cur out = true ∧ tabLe tab t ∧ t = bindLabels tab out ∧
      ∀ r ∈ out, Pass1Inv t r := by
  induction insts with
  | nil =>
    intro tab cur t c out h
    rw [genPass1] at h
    cases h
    refine ⟨rfl, tabLe_refl tab, rfl, ?_⟩
    intro r hr
    exact absurd hr (by simp)
  | cons inst rest ih =>
    intro tab cur t c out h
    rw [genPass1] at h
    by_cases hD : inst.rtype = "DATA"
    · rw [if_pos hD] at h
      cases hl : inst.label with
      | none =>
        rw [hl] at h
        dsimp only at h
        split at h
        · exact absurd h (by simp)
        · rename_i t2 c2 o2 heq
          cases h
          obtain ⟨hch, hle, hbind, hinv⟩ := ih heq
          refine ⟨by simp [chainFrom, hch], hle, hbind, ?_⟩
          intro r hr
          cases hr with
          | head =>
            intro hI
            exact absurd (hD.symm.trans hI) (by decide)
          | tail b hm => exact hinv r hm
      | some lab =>
        rw [hl] at h
        dsimp only at h
        split at h
        · exact absurd h (by simp)
        · rename_i t2 c2 o2 heq
          cases h
          obtain ⟨hch, hle, hbind, hinv⟩ := ih heq
          refine ⟨by simp [chainFrom, hch],
            tabLe_trans (tabLe_insertSym tab lab ⟨cur, "LABEL"⟩) hle, hbind, ?_⟩
          intro r hr
          cases hr with
          | head =>
            intro hI
            exact absurd (hD.symm.trans hI) (by decide)
          | tail b hm => exact hinv r hm
    · rw [if_neg hD] at h
      by_cases hI : inst.rtype = "INSTRUCTION"
      · rw [if_pos hI] at h
        cases hl : inst.label with
        | none =>
          rw [hl] at h
          dsimp only at h
          split at h
          · exact absurd h (by simp)
          · rename_i enc heqE
            split at h
            · exact absurd h (by simp)
            · rename_i t2 c2 o2 heq
              cases h
              obtain ⟨hch, hle, hbind, hinv⟩ := ih heq
              refine ⟨by simp [chainFrom, hch], hle, hbind, ?_⟩
              intro r hr
              cases hr with
              | head =>
                intro hI2
                exact ⟨tab, enc, hle,
                  (encodeInstruction_only_fields tab inst.rtype inst.mnemonic
                    inst.operands cur enc.bytes inst.bytes none none).trans heqE,
                  rfl⟩
              | tail b hm => exact hinv r hm
        | some lab =>
          rw [hl] at h
          dsimp only at h
          split at h
          · exact absurd h (by simp)
          · rename_i enc heqE
            split at h
            · exact absurd h (by simp)
            · rename_i t2 c2 o2 heq
              cases h
              obtain ⟨hch, hle, hbind, hinv⟩ := ih heq
              refine ⟨by simp [chainFrom, hch],
                tabLe_trans (tabLe_insertSym tab lab ⟨cur, "LABEL"⟩) hle, hbind, ?_⟩
              intro r hr
              cases hr with
              | head =>
                intro hI2
                exact ⟨insertSym tab lab ⟨cur, "LABEL"⟩, enc, hle,
                  (encodeInstruction_only_fields (insertSym tab lab ⟨cur, "LABEL"⟩)
                    inst.rtype inst.mnemonic inst.operands cur enc.bytes inst.bytes
                    (some lab) (some lab)).trans heqE,
                  rfl⟩
              | tail b hm => exact hinv r hm
      · rw [if_neg hI] at h
        exact ih h


theorem update_bytes_bytes (r : IRecord) (b : List Int) :
    ({ r with bytes := b } : IRecord).bytes = b := by
  cases r
  rfl

theorem reencode_fields (t : SymTable) (r : IRecord) :
    (reencode t r).rtype = r.rtype ∧ (reencode t r).mnemonic = r.mnemonic ∧
    (reencode t r).operands = r.operands ∧ (reencode t r).address = r.address ∧
    (reencode t r).label = r.label := by
  rw [reencode]
  split_ifs with hc
  · cases hE : encodeInstruction t r with
    | error m => exact ⟨rfl, rfl, rfl, rfl, rfl⟩
    | ok enc => exact ⟨rfl, rfl, rfl, rfl, rfl⟩
  · exact ⟨rfl, rfl, rfl, rfl, rfl⟩

theorem reencode_len {t : SymTable} {r : IRecord} (hinv : Pass1Inv t r) :
    (reencode t r).bytes.length = r.bytes.length := by
  rw [reencode]
  split_ifs with hc
  · cases hE : encodeInstruction t r with
    | error m => rfl
    | ok enc =>
      show enc.bytes.length = r.bytes.length
      obtain ⟨tabi, enc0, hLE, hE0, hb0⟩ := hinv hc.1
      rw [← hb0]
      exact encodeInstruction_congr_len hLE hE0 hE
  · rfl

theorem chainFrom_genPass2 {t : SymTable} : ∀ {l : List IRecord} {cur : Int},
    chainFrom cur l = true → (∀ r ∈ l, Pass1Inv t r) →
    chainFrom cur (genPass2 t l) = true := by
  intro l
  induction l with
  | nil =>
    intro cur h hall
    exact h
  | cons r rest ih =>
    intro cur h hall
    rw [chainFrom] at h
    rw [genPass2, List.map_cons, chainFrom]
    rw [(reencode_fields t r).2.2.2.1]
    rw [reencode_len (hall r (by simp))]
    rw [Bool.and_eq_true] at h ⊢
    exact ⟨h.1, ih h.2 (fun x hx => hall x (by simp [hx]))⟩

theorem bindStep_reencode (tab t : SymTable) (r : IRecord) :
    bindStep tab (reencode t r) = bindStep tab r := by
  obtain ⟨-, -, -, had, hlb⟩ := reencode_fields t r
  rw [bindStep, bindStep, hlb, had]

theorem bindLabels_genPass2 {t : SymTable} : ∀ {l : List IRecord} {tab : SymTable},
    bindLabels tab (genPass2 t l) = bindLabels tab l := by
  intro l
  induction l with
  | nil =>
    intro tab
    rfl
  | cons r rest ih =>
    intro tab
    rw [genPass2, List.map_cons, bindLabels, bindLabels, List.foldl_cons,
      List.foldl_cons, bindStep_reencode]
    exact ih


theorem lookup_bindLabels : ∀ (l : List IRecord) (tab : SymTable) (n : String),
    lookupSym (bindLabels tab l) n =
      match lastLabelled l n with
      | some r => some ⟨r.address, "LABEL"⟩
      | none => lookupSym tab n := by
  intro l
  induction l with
  | nil =>
    intro tab n
    rfl
  | cons r rest ih =>
    intro tab n
    rw [bindLabels, List.foldl_cons,
      show List.foldl bindStep (bindStep tab r) rest =
        bindLabels (bindStep tab r) rest from rfl, ih]
    rw [lastLabelled, lastLabelled, List.reverse_cons, List.find?_append]
    cases hfind : List.find? (fun x => x.label == some n) rest.reverse with
    | some q => rfl
    | none =>
      by_cases hp : (r.label == some n) = true
      · have hlab : r.label = some n := by simpa using hp
        simp only [List.find?_cons, hp, Option.none_or]
        rw [bindStep, hlab]
        rw [lookup_insertSym_self]
      · simp only [List.find?_cons, Bool.of_not_eq_true hp, List.find?_nil,
          Option.none_or]
        cases hl2 : r.label with
        | none => rw [bindStep, hl2]
        | some m =>
          have hmn : m ≠ n := by
            intro hmn
            rw [hl2, hmn] at hp
            exact hp (by simp)
          rw [bindStep, hl2, lookup_insertSym_other tab m n _ (fun hx => hmn hx.symm)]


/-- Claim C2 (amended): in every successful run of the code generator, the
final records satisfy unconditional address adjacency with respect to their
final byte lists: the first record sits at the start counter and every later
record sits at the previous address plus the previous byte count. There is
no `.ORG` exception: the generator recomputes all addresses sequentially and
directives never reach it (second-pass re-encoding can only replace a byte
list by one of equal length). -/
theorem C2_final_records_chain (tab : SymTable) (cur : Int) (insts : List IRecord)
    (t : SymTable) (out : List IRecord) (h : generate tab cur insts = .ok (t, out)) :
    chainFrom cur out = true := by
  rw [generate] at h
  split at h
  · exact absurd h (by simp)
  · rename_i x0 t0 c0 o0 heq
    cases h
    obtain ⟨hch, -, -, hinv⟩ := genPass1_sound heq
    exact chainFrom_genPass2 hch hinv

theorem C2_final_records_chain_witness :
    chainFrom 0x4200 [⟨"INSTRUCTION", "NOP", [], 0x4200, [0], none⟩,
      ⟨"DATA", "", [], 0x4201, [1, 2], none⟩] = true :=
  C2_final_records_chain [] 0x4200
    [⟨"INSTRUCTION", "NOP", [], 0, [], none⟩, ⟨"DATA", "", [], 0, [1, 2], none⟩]
    [] [⟨"INSTRUCTION", "NOP", [], 0x4200, [0], none⟩,
      ⟨"DATA", "", [], 0x4201, [1, 2], none⟩] (by decide)

/-- Claim C3 (amended): after a successful generate run, a name is bound in
the final symbol table to the final (post-codegen) address of the last
output record that carries it as its label field, with type LABEL; a name
carried by no output record keeps its parser-pass binding unchanged. In
particular a label the parser failed to attach to its record keeps its
pass-1 address, which need not equal the codegen address of the definition
site. -/
theorem C3_label_rebinding (tab : SymTable) (cur : Int) (insts : List IRecord)
    (t : SymTable) (out : List IRecord) (h : generate tab cur insts = .ok (t, out))
    (n : String) :
    lookupSym t n =
      match lastLabelled out n with
      | some r => some ⟨r.address, "LABEL"⟩
      | none => lookupSym tab n := by
  rw [generate] at h
  split at h
  · exact absurd h (by simp)
  · rename_i x0 t0 c0 o0 heq
    cases h
    obtain ⟨-, -, hbind, -⟩ := genPass1_sound heq
    have h1 : lookupSym t n = lookupSym (bindLabels tab (genPass2 t o0)) n := by
      rw [bindLabels_genPass2, ← hbind]
    rw [h1, lookup_bindLabels]

theorem C3_label_rebinding_witness :
    lookupSym [("L", ⟨0x4200, "LABEL"⟩)] "L" = some ⟨0x4200, "LABEL"⟩ :=
  (C3_label_rebinding [] 0x4200 [⟨"INSTRUCTION", "NOP", [], 0, [], some "L"⟩]
    [("L", ⟨0x4200, "LABEL"⟩)]
    [⟨"INSTRUCTION", "NOP", [], 0x4200, [0], some "L"⟩] (by decide) "L").trans
    (by decide)


theorem genPass1_append : ∀ {l1 l2 : List IRecord} {tab : SymTable} {cur : Int}
    {t : SymTable} {c : Int} {out : List IRecord},
    genPass1 tab cur (l1 ++ l2) = .ok (t, c, out) →
    ∃ t1 c1 o1 o2, genPass1 tab cur l1 = .ok (t1, c1, o1) ∧
      genPass1 t1 c1 l2 = .ok (t, c, o2) ∧ out = o1 ++ o2 := by
  intro l1
  induction l1 with
  | nil =>
    intro l2 tab cur t c out h
    exact ⟨tab, cur, [], out, rfl, h, rfl⟩
  | cons inst rest ih =>
    intro l2 tab cur t c out h
    rw [List.cons_append, genPass1] at h
    by_cases hD : inst.rtype = "DATA"
    · rw [if_pos hD] at h
      cases hl : inst.label with
      | none =>
        rw [hl] at h
        dsimp only at h
        split at h
        · exact absurd h (by simp)
        · rename_i t2 c2 o2all heq
          cases h
          obtain ⟨t1, c1, o1, o2, hA, hB, hcat⟩ := ih heq
          refine ⟨t1, c1,
            ⟨inst.rtype, inst.mnemonic, inst.operands, cur, inst.bytes, none⟩ :: o1,
            o2, ?_, hB, ?_⟩
          · rw [genPass1, if_pos hD, hl]
            dsimp only
            rw [hA]
          · rw [hcat, List.cons_append]
      | some lab =>
        rw [hl] at h
        dsimp only at h
        split at h
        · exact absurd h (by simp)
        · rename_i t2 c2 o2all heq
          cases h
          obtain ⟨t1, c1, o1, o2, hA, hB, hcat⟩ := ih heq
          refine ⟨t1, c1,
            ⟨inst.rtype, inst.mnemonic, inst.operands, cur, inst.bytes, some lab⟩ :: o1,
            o2, ?_, hB, ?_⟩
          · rw [genPass1, if_pos hD, hl]
            dsimp only
            rw [hA]
          · rw [hcat, List.cons_append]
    · rw [if_neg hD] at h
      by_cases hI : inst.rtype = "INSTRUCTION"
      · rw [if_pos hI] at h
        cases hl : inst.label with
        | none =>
          rw [hl] at h
          dsimp only at h
          split at h
          · exact absurd h (by simp)
          · rename_i enc heqE
            split at h
            · exact absurd h (by simp)
            · rename_i t2 c2 o2all heq
              cases h
              obtain ⟨t1, c1, o1, o2, hA, hB, hcat⟩ := ih heq
              refine ⟨t1, c1,
                ⟨inst.rtype, inst.mnemonic, inst.operands, cur, enc.bytes, none⟩ :: o1,
                o2, ?_, hB, ?_⟩
              · rw [genPass1, if_neg hD, if_pos hI, hl]
                dsimp only
                rw [heqE]
                dsimp only
                rw [hA]
              · rw [hcat, List.cons_append]
        | some lab =>
          rw [hl] at h
          dsimp only at h
          split at h
          · exact absurd h (by simp)
          · rename_i enc heqE
            split at h
            · exact absurd h (by simp)
            · rename_i t2 c2 o2all heq
              cases h
              obtain ⟨t1, c1, o1, o2, hA, hB, hcat⟩ := ih heq
              refine ⟨t1, c1,
                ⟨inst.rtype, inst.mnemonic, inst.operands, cur, enc.bytes, some lab⟩ :: o1,
                o2, ?_, hB, ?_⟩
              · rw [genPass1, if_neg hD, if_pos hI, hl]
                dsimp only
                rw [heqE]
                dsimp only
                rw [hA]
              · rw [hcat, List.cons_append]
      · rw [if_neg hI] at h
        obtain ⟨t1, c1, o1, o2, hA, hB, hcat⟩ := ih h
        refine ⟨t1, c1, o1, o2, ?_, hB, hcat⟩
        rw [genPass1, if_neg hD, if_neg hI]
        exact hA


theorem genPass1_data0 : ∀ {mid : List IRecord} {tab : SymTable} {cur : Int}
    {t : SymTable} {c : Int} {out : List IRecord},
    genPass1 tab cur mid = .ok (t, c, out) →
    (∀ r ∈ mid, r.rtype = "DATA" ∧ r.bytes = ([0] : List Int)) →
    c = cur + mid.length ∧ out.length = mid.length ∧
      ∀ r ∈ out, r.rtype = "DATA" ∧ r.bytes = ([0] : List Int) := by
  intro mid
  induction mid with
  | nil =>
    intro tab cur t c out h hall
    rw [genPass1] at h
    cases h
    refine ⟨by simp, rfl, ?_⟩
    intro r hr
    exact absurd hr (by simp)
  | cons inst rest ih =>
    intro tab cur t c out h hall
    have hD : inst.rtype = "DATA" := (hall inst (by simp)).1
    have hb : inst.bytes = [0] := (hall inst (by simp)).2
    rw [genPass1, if_pos hD] at h
    cases hl : inst.label with
    | none =>
      rw [hl] at h
      dsimp only at h
      split at h
      · exact absurd h (by simp)
      · rename_i t2 c2 o2 heq
        cases h
        obtain ⟨hc2, hlen, hz⟩ := ih heq (fun r hr => hall r (by simp [hr]))
        refine ⟨?_, by simp [hlen], ?_⟩
        · rw [hc2, hb]
          simp
          omega
        · intro r hr
          cases hr with
          | head => exact ⟨hD, hb⟩
          | tail b hm => exact hz r hm
    | some lab =>
      rw [hl] at h
      dsimp only at h
      split at h
      · exact absurd h (by simp)
      · rename_i t2 c2 o2 heq
        cases h
        obtain ⟨hc2, hlen, hz⟩ := ih heq (fun r hr => hall r (by simp [hr]))
        refine ⟨?_, by simp [hlen], ?_⟩
        · rw [hc2, hb]
          simp
          omega
        · intro r hr
          cases hr with
          | head => exact ⟨hD, hb⟩
          | tail b hm => exact hz r hm

theorem reencode_data_id {t : SymTable} {r : IRecord} (h : r.rtype = "DATA") :
    reencode t r = r := by
  rw [reencode, if_neg]
  rintro ⟨h1, -⟩
  exact absurd (h.symm.trans h1) (by decide)

theorem genPass2_data_id {t : SymTable} : ∀ {l : List IRecord},
    (∀ r ∈ l, r.rtype = "DATA") → genPass2 t l = l := by
  intro l
  induction l with
  | nil =>
    intro h
    rfl
  | cons r rest ih =>
    intro h
    rw [genPass2, List.map_cons, reencode_data_id (h r (by simp)),
      show List.map (reencode t) rest = genPass2 t rest from rfl,
      ih (fun x hx => h x (by simp [hx]))]

theorem genPass2_append (t : SymTable) (l1 l2 : List IRecord) :
    genPass2 t (l1 ++ l2) = genPass2 t l1 ++ genPass2 t l2 :=
  List.map_append _ _ _

theorem assembleBytes_append (l1 l2 : List IRecord) :
    assembleBytes (l1 ++ l2) = assembleBytes l1 ++ assembleBytes l2 := by
  rw [assembleBytes, assembleBytes, assembleBytes, List.map_append,
    List.flatten_append]

theorem assembleBytes_zeros : ∀ {l : List IRecord},
    (∀ r ∈ l, r.bytes = ([0] : List Int)) →
    assembleBytes l = List.replicate l.length 0 := by
  intro l
  induction l with
  | nil =>
    intro h
    rfl
  | cons r rest ih =>
    intro h
    rw [assembleBytes, List.map_cons, List.flatten_cons, h r (by simp),
      show (List.map (fun inst => inst.bytes.map fun b => (jsAnd b 255).toNat)
        rest).flatten = assembleBytes rest from rfl,
      ih (fun x hx => h x (by simp [hx])), List.length_cons, List.replicate_succ]
    rfl

theorem dsRecs_spec : ∀ (n : Nat) (a : Int), (dsRecs a n).length = n ∧
    ∀ r ∈ dsRecs a n, r.rtype = "DATA" ∧ r.bytes = ([0] : List Int) := by
  intro n
  induction n with
  | zero =>
    intro a
    refine ⟨rfl, ?_⟩
    intro r hr
    rw [dsRecs] at hr
    exact absurd hr (by simp)
  | succ m ih =>
    intro a
    rw [dsRecs]
    refine ⟨by simp [(ih (a + 1)).1], ?_⟩
    intro r hr
    cases hr with
    | head => exact ⟨rfl, rfl⟩
    | tail b hm => exact (ih (a + 1)).2 r hm

theorem dsEmit_spec : ∀ (n : Nat) (s : PState),
    (dsEmit n s).instructions = s.instructions ++ dsRecs s.currentAddress n ∧
    (dsEmit n s).currentAddress = s.currentAddress + n := by
  intro n
  induction n with
  | zero =>
    intro s
    rw [dsEmit, dsRecs]
    exact ⟨by simp, by simp⟩
  | succ m ih =>
    intro s
    rw [dsEmit, dsRecs]
    obtain ⟨h1, h2⟩ := ih { s with
      instructions := s.instructions ++
        [{ rtype := "DATA", bytes := [0], address := s.currentAddress }],
      currentAddress := s.currentAddress + 1 }
    constructor
    · rw [h1]
      dsimp only
      simp [List.append_assoc]
    · rw [h2]
      dsimp only
      push_cast
      ring


/-- Claim C10: the `.DS n` directive branch of parseDirectivePass2 (modelled
by dsEmit, its loop body) appends exactly n DATA records, each with byte
list [0], at consecutive addresses, advancing the parser address by n; and
in any successful generate run whose input contains such a block of n
single-zero DATA records, the output byte image contains exactly n zero
bytes at that position in source order (the generator preserves DATA bytes
in both passes and assembleBytes masks 0 to 0). -/
theorem C10_ds_zero_fill :
    (∀ (n : Nat) (s : PState),
      (dsEmit n s).instructions = s.instructions ++ dsRecs s.currentAddress n ∧
      (dsEmit n s).currentAddress = s.currentAddress + n) ∧
    (∀ (a : Int) (n : Nat), (dsRecs a n).length = n ∧
      ∀ r ∈ dsRecs a n, r.rtype = "DATA" ∧ r.bytes = ([0] : List Int)) ∧
    (∀ (tab : SymTable) (cur : Int) (pre mid post : List IRecord)
      (t : SymTable) (out : List IRecord),
      (∀ r ∈ mid, r.rtype = "DATA" ∧ r.bytes = ([0] : List Int)) →
      generate tab cur (pre ++ mid ++ post) = .ok (t, out) →
      ∃ t1 c1 o1 t2 o2 c3 o3,
        genPass1 tab cur pre = .ok (t1, c1, o1) ∧
        genPass1 t1 c1 mid = .ok (t2, c1 + mid.length, o2) ∧
        genPass1 t2 (c1 + mid.length) post = .ok (t, c3, o3) ∧
        out = genPass2 t o1 ++ o2 ++ genPass2 t o3 ∧
        o2.length = mid.length ∧
        assembleBytes out =
          assembleBytes (genPass2 t o1) ++ List.replicate mid.length 0 ++
            assembleBytes (genPass2 t o3)) := by
  refine ⟨fun n s => dsEmit_spec n s, fun a n => dsRecs_spec n a, ?_⟩
  intro tab cur pre mid post t out hmid h
  rw [generate] at h
  split at h
  · exact absurd h (by simp)
  · rename_i x0 t0 c0 oall heq
    cases h
    obtain ⟨t2, cm, o12, o3, hAB, hC, hcat⟩ := genPass1_append heq
    obtain ⟨t1, c1, o1, o2, hA, hB, hcat2⟩ := genPass1_append hAB
    obtain ⟨hc2, hlen2, hz⟩ := genPass1_data0 hB hmid
    subst hc2
    subst hcat2
    subst hcat
    have hgp2 : genPass2 t o2 = o2 := genPass2_data_id (fun r hr => (hz r hr).1)
    refine ⟨t1, c1, o1, t2, o2, c0, o3, hA, hB, hC, ?_, hlen2, ?_⟩
    · rw [genPass2_append, genPass2_append, hgp2]
    · rw [genPass2_append, genPass2_append, hgp2]
      rw [assembleBytes_append, assembleBytes_append]
      rw [assembleBytes_zeros (fun r hr => (hz r hr).2), hlen2]

theorem C10_ds_zero_fill_witness :
    ∃ t1 c1 o1 t2 o2 c3 o3,
      genPass1 [] 0x4200 [(⟨"INSTRUCTION", "NOP", [], 0, [], none⟩ : IRecord)] =
        .ok (t1, c1, o1) ∧
      genPass1 t1 c1 [(⟨"DATA", "", [], 0, [0], none⟩ : IRecord),
        ⟨"DATA", "", [], 0, [0], none⟩] = .ok (t2, c1 + 2, o2) ∧
      genPass1 t2 (c1 + 2) [(⟨"DATA", "", [], 0, [9], none⟩ : IRecord)] =
        .ok ([], c3, o3) ∧
      ([⟨"INSTRUCTION", "NOP", [], 0x4200, [0], none⟩,
        ⟨"DATA", "", [], 0x4201, [0], none⟩,
        ⟨"DATA", "", [], 0x4202, [0], none⟩,
        ⟨"DATA", "", [], 0x4203, [9], none⟩] : List IRecord) =
          genPass2 [] o1 ++ o2 ++ genPass2 [] o3 ∧
      o2.length = 2 ∧
      assembleBytes [⟨"INSTRUCTION", "NOP", [], 0x4200, [0], none⟩,
        ⟨"DATA", "", [], 0x4201, [0], none⟩,
        ⟨"DATA", "", [], 0x4202, [0], none⟩,
        ⟨"DATA", "", [], 0x4203, [9], none⟩] =
          assembleBytes (genPass2 [] o1) ++ List.replicate 2 0 ++
            assembleBytes (genPass2 [] o3) :=
  C10_ds_zero_fill.2.2 [] 0x4200 [⟨"INSTRUCTION", "NOP", [], 0, [], none⟩]
    [⟨"DATA", "", [], 0, [0], none⟩, ⟨"DATA", "", [], 0, [0], none⟩]
    [⟨"DATA", "", [], 0, [9], none⟩] []
    [⟨"INSTRUCTION", "NOP", [], 0x4200, [0], none⟩,
      ⟨"DATA", "", [], 0x4201, [0], none⟩,
      ⟨"DATA", "", [], 0x4202, [0], none⟩,
      ⟨"DATA", "", [], 0x4203, [9], none⟩] (by decide) (by decide)

end Z80
